import Mathlib

/-! # Neighbor discovery and ping engine of `LSRoutingProtocol`

A shallow embedding of `contrib/upenn-cis553/ls-routing-protocol/ls-routing-protocol.cc`
(and of the message declarations of `ls-message.h`), followed by theorems about it.
The engine of `contrib/upenn-cis553/dv-routing-protocol/dv-routing-protocol.cc` is
embedded next to it, under the names `DV.*`, for the comparison of the two.

Conventions of the embedding

* An `Ipv4Address` is its 32-bit host-order value.
* A `Time` is a non-negative count of nanoseconds, the default resolution of the
  simulator clock; `GetMilliSeconds` truncates to whole milliseconds.
* A `std::map` with integer keys is the list of its key/value pairs in iteration
  (ascending key) order.  The operations are defined on every list; `StdMap.WF`
  is the representation invariant and the operations are shown to keep it.
* A member function becomes a function from the object (and the simulator clock
  `now`, where it is read) to the new object and the list of effects it caused:
  the packets handed to `BroadcastPacket` and the neighbor dumps.
* A function that can abort the process (`NS_ABORT_MSG`, `NS_ASSERT`) or whose
  behaviour is undefined returns an `Option`, `none` standing for that outcome.
-/

namespace LSRouting

/-! ## Addresses and time -/

abbrev Ipv4Address := Nat

/-- The value of a default-constructed `Ipv4Address()`: ns-3 initialises it to
`0x66666666` (102.102.102.102). -/
def Ipv4Address.Default : Ipv4Address := 0x66666666

/-- The address `Ipv4Address::GetAny()`, 0.0.0.0. -/
def Ipv4Address.GetAny : Ipv4Address := 0

/-- The address `Ipv4Address::GetLoopback()`, 127.0.0.1. -/
def Ipv4Address.GetLoopback : Ipv4Address := 0x7f000001

abbrev Time := Nat

/-- The time `Seconds(s)` in nanoseconds. -/
def Seconds (s : Nat) : Time := s * 1000000000

/-- The time `MilliSeconds(ms)` in nanoseconds. -/
def MilliSeconds (ms : Nat) : Time := ms * 1000000

/-- The conversion `Time::GetMilliSeconds()`: integer division, fractions of a
millisecond are dropped. -/
def GetMilliSeconds (t : Time) : Nat := t / 1000000

/-- An `Ipv4InterfaceAddress`, reduced to the two parts the engine reads. -/
structure Ipv4InterfaceAddress where
  local_ : Ipv4Address
  mask : Nat
  deriving DecidableEq, Repr

/-- The member `Ipv4InterfaceAddress::GetLocal`. -/
def Ipv4InterfaceAddress.GetLocal (a : Ipv4InterfaceAddress) : Ipv4Address := a.local_

/-- The member `Ipv4InterfaceAddress::GetMask`. -/
def Ipv4InterfaceAddress.GetMask (a : Ipv4InterfaceAddress) : Nat := a.mask

/-- The address `Ipv4Address::GetSubnetDirectedBroadcast(mask)`: the address with
every host bit set. -/
def GetSubnetDirectedBroadcast (addr : Ipv4Address) (mask : Nat) : Ipv4Address :=
  addr ||| (mask ^^^ 0xFFFFFFFF)

/-! ## `std::map` -/

abbrev StdMap (V : Type) := List (Nat × V)

/-- The representation invariant of a `std::map`: keys strictly ascending. -/
def StdMap.WF {V : Type} (m : StdMap V) : Prop := List.Pairwise (fun a b => a.1 < b.1) m

instance StdMap.decidableWF {V : Type} (m : StdMap V) : Decidable (StdMap.WF m) :=
  inferInstanceAs (Decidable (List.Pairwise (fun (a b : Nat × V) => a.1 < b.1) m))

/-- The lookup `std::map::find`, `none` standing for `end()`. -/
def StdMap.find {V : Type} : StdMap V → Nat → Option V
  | [], _ => none
  | (k', v) :: t, k => if k' = k then some v else StdMap.find t k

/-- The insertion `std::map::insert`: the pair is added in key order, and
nothing happens when the key is already present. -/
def StdMap.insert {V : Type} : StdMap V → Nat → V → StdMap V
  | [], k, v => [(k, v)]
  | (k', v') :: t, k, v =>
    if k < k' then (k, v) :: (k', v') :: t
    else if k = k' then (k', v') :: t
    else (k', v') :: StdMap.insert t k v

/-- The assignment `iter->second = v` through the iterator that `find(k)`
returned: the value of the element found is replaced. -/
def StdMap.assign {V : Type} : StdMap V → Nat → V → StdMap V
  | [], _, _ => []
  | (k', v') :: t, k, v =>
    if k' = k then (k', v) :: t else (k', v') :: StdMap.assign t k v

/-- The removal `std::map::erase(iter)` through the iterator that `find(k)`
returned; keys are unique, so this removes what is stored under `k`. -/
def StdMap.erase {V : Type} (m : StdMap V) (k : Nat) : StdMap V :=
  m.filter (fun e => decide (e.1 ≠ k))

/-- The loop `for (iter = m.begin(); iter != m.end();)` that erases the elements
for which `expired` holds and steps over the others. -/
def StdMap.eraseWhere {V : Type} (expired : V → Bool) : StdMap V → StdMap V
  | [] => []
  | (k, v) :: t =>
    if expired v then StdMap.eraseWhere expired t
    else (k, v) :: StdMap.eraseWhere expired t

/-! ## Decimal text of node numbers -/

/-- The character of one decimal digit. -/
def digitChar (d : Nat) : Char := Char.ofNat (48 + d)

/-- The digits of `n`, most significant first, put before `acc`; `fuel` bounds
the number of digits. -/
def decimalDigits : Nat → Nat → List Char → List Char
  | 0, _, acc => acc
  | fuel + 1, n, acc =>
    if n / 10 = 0 then digitChar (n % 10) :: acc
    else decimalDigits fuel (n / 10) (digitChar (n % 10) :: acc)

/-- The text that `ostream << uint32_t` writes: the decimal digits of the value
(at most ten of them). -/
def formatUInt32 (n : Nat) : String := String.mk (decimalDigits 10 (n % 2 ^ 32) [])

/-- The value of the leading run of decimal digits, continued from `acc`. -/
def readDigits : List Char → Nat → Nat
  | [], acc => acc
  | c :: cs, acc =>
    if c.isDigit then readDigits cs (acc * 10 + (c.toNat - 48)) else acc

/-- The white space that formatted extraction skips. -/
def isSpace (c : Char) : Bool := c.toNat = 32 || (9 ≤ c.toNat && c.toNat ≤ 13)

/-- The unsigned value of a digit string, as formatted extraction stores it:
zero when there is no digit, the largest `uint32_t` on overflow, and the
two-complement negation after a minus sign. -/
def extractDigits (negative : Bool) (cs : List Char) : Nat :=
  match cs with
  | [] => 0
  | c :: _ =>
    if c.isDigit then
      let v := readDigits cs 0
      if v > 0xFFFFFFFF then 0xFFFFFFFF
      else if negative then (2 ^ 32 - v) % 2 ^ 32 else v
    else 0

/-- The extraction `std::istringstream(s) >> value` into a `uint32_t`: what it
stores in `value`.  The stream sentry skips the leading white space; when it
reaches the end of the text (an empty or blank text) the extraction is not
attempted and nothing is stored: `none`.  Otherwise a sign is accepted and a
value is stored, 0 when the conversion fails. -/
def extractUInt32 (s : String) : Option Nat :=
  match s.data.dropWhile isSpace with
  | [] => none
  | c :: cs =>
    if c = Char.ofNat 45 then some (extractDigits true cs)
    else if c = Char.ofNat 43 then some (extractDigits false cs)
    else some (extractDigits false (c :: cs))

/-! ## Messages (`ls-message.h`) -/

/-- The enumerator `LSMessage::PING_REQ`. -/
def PING_REQ : Nat := 0
/-- The enumerator `LSMessage::PING_RSP`. -/
def PING_RSP : Nat := 1
/-- The enumerator `LSMessage::HELLO_REQ`. -/
def HELLO_REQ : Nat := 2
/-- The enumerator `LSMessage::HELLO_RSP`. -/
def HELLO_RSP : Nat := 3

/-- The payload `LSMessage::PingReq`. -/
structure PingReq where
  destinationAddress : Ipv4Address
  pingMessage : String
  deriving DecidableEq, Repr

/-- The payload `LSMessage::PingRsp`. -/
structure PingRsp where
  destinationAddress : Ipv4Address
  pingMessage : String
  deriving DecidableEq, Repr

/-- The payload `LSMessage::HelloReq`. -/
structure HelloReq where
  destinationAddress : Ipv4Address
  helloMessage : String
  deriving DecidableEq, Repr

/-- The payload `LSMessage::HelloRsp`. -/
structure HelloRsp where
  sourceAddress : Ipv4Address
  destinationAddress : Ipv4Address
  helloMessage : String
  deriving DecidableEq, Repr

/-- The member `m_message` of `LSMessage`: a struct holding one payload of each
kind. -/
structure Payloads where
  pingReq : PingReq
  pingRsp : PingRsp
  helloReq : HelloReq
  helloRsp : HelloRsp
  deriving DecidableEq, Repr

/-- The class `LSMessage`: the header fields and the payloads. -/
structure LSMessage where
  m_messageType : Nat
  m_sequenceNumber : Nat
  m_originatorAddress : Ipv4Address
  m_ttl : Nat
  m_message : Payloads
  deriving DecidableEq, Repr

/-- The payloads of a message that has just been constructed: default addresses
and empty texts. -/
def Payloads.empty : Payloads :=
  { pingReq := ⟨Ipv4Address.Default, ""⟩
    pingRsp := ⟨Ipv4Address.Default, ""⟩
    helloReq := ⟨Ipv4Address.Default, ""⟩
    helloRsp := ⟨Ipv4Address.Default, Ipv4Address.Default, ""⟩ }

/-- Modelled from the spec: the constructor
`LSMessage(messageType, sequenceNumber, ttl, originatorAddress)` is declared in
`ls-message.h` and its body is not among the sources.  It stores the four header
fields, the sequence number as `uint32_t` and the TTL as `uint8_t`. -/
def LSMessage.new (messageType sequenceNumber ttl : Nat) (originatorAddress : Ipv4Address) :
    LSMessage :=
  { m_messageType := messageType
    m_sequenceNumber := sequenceNumber % 2 ^ 32
    m_originatorAddress := originatorAddress
    m_ttl := ttl % 256
    m_message := Payloads.empty }

/-- Modelled from the spec: `LSMessage::SetPingReq` (body not among the
sources) sets the params of the PingReq payload. -/
def LSMessage.SetPingReq (m : LSMessage) (destinationAddress : Ipv4Address) (message : String) :
    LSMessage :=
  { m with m_message := { m.m_message with pingReq := ⟨destinationAddress, message⟩ } }

/-- Modelled from the spec: `LSMessage::SetPingRsp` (body not among the
sources) sets the params of the PingRsp payload. -/
def LSMessage.SetPingRsp (m : LSMessage) (destinationAddress : Ipv4Address) (message : String) :
    LSMessage :=
  { m with m_message := { m.m_message with pingRsp := ⟨destinationAddress, message⟩ } }

/-- Modelled from the spec: `LSMessage::SetHelloReq` (body not among the
sources) sets the params of the HelloReq payload. -/
def LSMessage.SetHelloReq (m : LSMessage) (destinationAddress : Ipv4Address) (message : String) :
    LSMessage :=
  { m with m_message := { m.m_message with helloReq := ⟨destinationAddress, message⟩ } }

/-- Modelled from the spec: `LSMessage::SetHelloRsp` (body not among the
sources) sets the destination and text of the HelloRsp payload. -/
def LSMessage.SetHelloRsp (m : LSMessage) (destinationAddress : Ipv4Address) (message : String) :
    LSMessage :=
  { m with m_message :=
      { m.m_message with
        helloRsp := ⟨m.m_message.helloRsp.sourceAddress, destinationAddress, message⟩ } }

/-- Modelled from the spec: the getter `LSMessage::GetPingReq` returns the
PingReq struct. -/
def LSMessage.GetPingReq (m : LSMessage) : PingReq := m.m_message.pingReq

/-- Modelled from the spec: the getter `LSMessage::GetPingRsp` returns the
PingRsp struct. -/
def LSMessage.GetPingRsp (m : LSMessage) : PingRsp := m.m_message.pingRsp

/-- Modelled from the spec: the getter `LSMessage::GetHelloReq` returns the
HelloReq struct. -/
def LSMessage.GetHelloReq (m : LSMessage) : HelloReq := m.m_message.helloReq

/-- Modelled from the spec: the getter `LSMessage::GetHelloRsp` returns the
HelloRsp struct. -/
def LSMessage.GetHelloRsp (m : LSMessage) : HelloRsp := m.m_message.helloRsp

/-- The getter `LSMessage::GetMessageType`. -/
def LSMessage.GetMessageType (m : LSMessage) : Nat := m.m_messageType

/-- The getter `LSMessage::GetSequenceNumber`. -/
def LSMessage.GetSequenceNumber (m : LSMessage) : Nat := m.m_sequenceNumber

/-- The getter `LSMessage::GetOriginatorAddress`. -/
def LSMessage.GetOriginatorAddress (m : LSMessage) : Ipv4Address := m.m_originatorAddress

/-- The getter `LSMessage::GetTTL`. -/
def LSMessage.GetTTL (m : LSMessage) : Nat := m.m_ttl

/-! ## The engine state -/

/-- The class `PingRequest` (declared in `ping-request.h`): what the tracker
keeps about one probe. -/
structure PingRequest where
  m_sequenceNumber : Nat
  m_timestamp : Time
  m_destinationAddress : Ipv4Address
  m_pingMessage : String
  deriving DecidableEq, Repr

/-- The getter `PingRequest::GetTimestamp`. -/
def PingRequest.GetTimestamp (p : PingRequest) : Time := p.m_timestamp

/-- The getter `PingRequest::GetPingMessage`. -/
def PingRequest.GetPingMessage (p : PingRequest) : String := p.m_pingMessage

/-- The struct `NeighborTableEntry`, with the fields the engine writes. -/
structure NeighborTableEntry where
  neighborAddr : Ipv4Address
  interfaceAddr : Ipv4Address
  t_stamp : Time
  deriving DecidableEq, Repr

/-- An ns-3 `Timer`: the instant at which its pending event fires, if one is
scheduled. -/
structure Timer where
  m_event : Option Time
  deriving DecidableEq, Repr

/-- The call `Timer::Schedule(delay)` made at `now`. -/
def Timer.Schedule (_t : Timer) (now delay : Time) : Timer := ⟨some (now + delay)⟩

/-- The call `Timer::Cancel()`. -/
def Timer.Cancel (_t : Timer) : Timer := ⟨none⟩

/-- The query `Timer::IsRunning()`. -/
def Timer.IsRunning (t : Timer) : Bool := t.m_event.isSome

/-- The data members of `LSRoutingProtocol` that the engine reads or writes.
`m_socketAddresses` lists the bound interface sockets in the iteration order of
the socket map. -/
structure LSRoutingProtocol where
  m_socketAddresses : List Ipv4InterfaceAddress
  m_recvSocket : Bool
  m_mainAddress : Ipv4Address
  m_pingTimeout : Time
  m_neighborTimeout : Time
  m_maxTTL : Nat
  m_lsPort : Nat
  m_currentSequenceNumber : Nat
  m_nodeAddressMap : StdMap Ipv4Address
  m_addressNodeMap : StdMap Nat
  m_auditPingsTimer : Timer
  m_auditNeighborsTimer : Timer
  m_neighbors : StdMap NeighborTableEntry
  m_pingTracker : StdMap PingRequest
  deriving DecidableEq, Repr

/-- The constant `LS_MAX_SEQUENCE_NUMBER`. -/
def LS_MAX_SEQUENCE_NUMBER : Nat := 0xFFFF

/-- The constant `LS_PORT_NUMBER`. -/
def LS_PORT_NUMBER : Nat := 698

/-- What a member function did besides changing the object. -/
inductive Effect where
  | Broadcast (packet : LSMessage)
  | Dump (rows : List (Nat × NeighborTableEntry))
  deriving DecidableEq, Repr

/-- One `SendTo` on an interface socket. -/
structure Send where
  socket : Nat
  packet : LSMessage
  address : Ipv4Address
  port : Nat
  deriving DecidableEq, Repr

/-! ## The engine (`ls-routing-protocol.cc`) -/

/-- The object right after the constructor `LSRoutingProtocol()`, with the defaults
that `GetTypeId` gives the attributes (port 5000, ping timeout 2000 ms, TTL 16). -/
def LSRoutingProtocol.new : LSRoutingProtocol :=
  { m_socketAddresses := []
    m_recvSocket := false
    m_mainAddress := Ipv4Address.Default
    m_pingTimeout := MilliSeconds 2000
    m_neighborTimeout := 0
    m_maxTTL := 16
    m_lsPort := 5000
    m_currentSequenceNumber := 0
    m_nodeAddressMap := []
    m_addressNodeMap := []
    m_auditPingsTimer := ⟨none⟩
    m_auditNeighborsTimer := ⟨none⟩
    m_neighbors := []
    m_pingTracker := [] }

/-- The lookup `LSRoutingProtocol::ResolveNodeIpAddress`. -/
def ResolveNodeIpAddress (self : LSRoutingProtocol) (nodeNumber : Nat) : Ipv4Address :=
  match StdMap.find self.m_nodeAddressMap nodeNumber with
  | some addr => addr
  | none => Ipv4Address.GetAny

/-- The lookup `LSRoutingProtocol::ReverseLookup`: the node number as decimal
text, or the text "Unknown". -/
def ReverseLookup (self : LSRoutingProtocol) (ipAddress : Ipv4Address) : String :=
  match StdMap.find self.m_addressNodeMap ipAddress with
  | some nodeNumber => formatUInt32 nodeNumber
  | none => "Unknown"

/-- The test `LSRoutingProtocol::IsOwnAddress`, over the bound interfaces. -/
def IsOwnAddressIn : List Ipv4InterfaceAddress → Ipv4Address → Bool
  | [], _ => false
  | interfaceAddr :: rest, originatorAddress =>
    if originatorAddress = interfaceAddr.GetLocal then true
    else IsOwnAddressIn rest originatorAddress

/-- The test `LSRoutingProtocol::IsOwnAddress`. -/
def IsOwnAddress (self : LSRoutingProtocol) (originatorAddress : Ipv4Address) : Bool :=
  IsOwnAddressIn self.m_socketAddresses originatorAddress

/-- The counter step `LSRoutingProtocol::GetNextSequenceNumber`, in `uint32_t`
arithmetic: the new object and the number returned. -/
def GetNextSequenceNumber (self : LSRoutingProtocol) : LSRoutingProtocol × Nat :=
  let next := ((self.m_currentSequenceNumber + 1) % 2 ^ 32) % (LS_MAX_SEQUENCE_NUMBER + 1)
  ({ self with m_currentSequenceNumber := next }, next)

/-- The sends of `LSRoutingProtocol::BroadcastPacket` from socket number `idx`
on: one copy per interface socket, to the subnet-directed broadcast address. -/
def BroadcastPacketFrom (idx : Nat) : List Ipv4InterfaceAddress → LSMessage → List Send
  | [], _ => []
  | i :: rest, packet =>
    { socket := idx
      packet := packet
      address := GetSubnetDirectedBroadcast i.GetLocal i.GetMask
      port := LS_PORT_NUMBER } :: BroadcastPacketFrom (idx + 1) rest packet

/-- The sends of `LSRoutingProtocol::BroadcastPacket`. -/
def BroadcastPacket (self : LSRoutingProtocol) (packet : LSMessage) : List Send :=
  BroadcastPacketFrom 0 self.m_socketAddresses packet

/-- The rows that `LSRoutingProtocol::DumpNeighbors` prints, in map order. -/
def DumpNeighbors (self : LSRoutingProtocol) : List (Nat × NeighborTableEntry) :=
  self.m_neighbors

/-- The command handler `LSRoutingProtocol::ProcessCommand` run at `now`.
Reading the first token of an empty vector is undefined: `none`.  So is the
read of `nodeNumber`, which is not initialised, when the extraction from the
node token stores nothing (an empty or blank token): `none` as well. -/
def ProcessCommand (self : LSRoutingProtocol) (now : Time) (tokens : List String) :
    Option (LSRoutingProtocol × List Effect) :=
  match tokens with
  | [] => none
  | command :: rest =>
    if command = "PING" then
      if tokens.length < 3 then some (self, [])
      else
        match rest with
        | nodeToken :: pingMessage :: _ =>
          match extractUInt32 nodeToken with
          | none => none
          | some nodeNumber =>
            let destAddress := ResolveNodeIpAddress self nodeNumber
            if destAddress ≠ Ipv4Address.GetAny then
              let (self1, sequenceNumber) := GetNextSequenceNumber self
              let pingRequest : PingRequest := ⟨sequenceNumber, now, destAddress, pingMessage⟩
              let self2 :=
                { self1 with
                  m_pingTracker := StdMap.insert self1.m_pingTracker sequenceNumber pingRequest }
              let lsMessage :=
                (LSMessage.new PING_REQ sequenceNumber self.m_maxTTL self.m_mainAddress).SetPingReq
                  destAddress pingMessage
              some (self2, [Effect.Broadcast lsMessage])
            else some (self, [])
        | _ => some (self, [])
    else if command = "DUMP" then
      if tokens.length < 2 then some (self, [])
      else
        match rest with
        | table :: _ =>
          if table = "NEIGHBORS" || table = "neighborS" then
            some (self, [Effect.Dump (DumpNeighbors self)])
          else some (self, [])
        | _ => some (self, [])
    else some (self, [])

/-- The handler `LSRoutingProtocol::ProcessPingReq`. -/
def ProcessPingReq (self : LSRoutingProtocol) (lsMessage : LSMessage) :
    LSRoutingProtocol × List Effect :=
  if IsOwnAddress self lsMessage.GetPingReq.destinationAddress then
    let lsResp :=
      (LSMessage.new PING_RSP lsMessage.GetSequenceNumber self.m_maxTTL self.m_mainAddress).SetPingRsp
        lsMessage.GetOriginatorAddress lsMessage.GetPingReq.pingMessage
    (self, [Effect.Broadcast lsResp])
  else (self, [])

/-- The handler `LSRoutingProtocol::ProcessHelloReq`; the local `m_maxTTL = 1`
hides the member. -/
def ProcessHelloReq (self : LSRoutingProtocol) (lsMessage : LSMessage) :
    LSRoutingProtocol × List Effect :=
  let helloMessage := "HELLO_REPLY"
  let m_maxTTL := 1
  let helloRsp :=
    (LSMessage.new HELLO_RSP lsMessage.GetSequenceNumber m_maxTTL self.m_mainAddress).SetHelloRsp
      lsMessage.GetOriginatorAddress helloMessage
  (self, [Effect.Broadcast helloRsp])

/-- The handler `LSRoutingProtocol::ProcessPingRsp`. -/
def ProcessPingRsp (self : LSRoutingProtocol) (lsMessage : LSMessage) :
    LSRoutingProtocol × List Effect :=
  if IsOwnAddress self lsMessage.GetPingRsp.destinationAddress then
    match StdMap.find self.m_pingTracker lsMessage.GetSequenceNumber with
    | some _ =>
      ({ self with
          m_pingTracker := StdMap.erase self.m_pingTracker lsMessage.GetSequenceNumber }, [])
    | none => (self, [])
  else (self, [])

/-- The handler `LSRoutingProtocol::ProcessHelloRsp` run at `now` for a message
that arrived on the interface with address `interfaceAd`.  The text that
`ReverseLookup` returns is never blank (a decimal number or "Unknown"), so the
extraction into `neighborNum` always stores a value (theorem
`extractUInt32_ReverseLookup_isSome`); the alternative of `getD` is never
taken. -/
def ProcessHelloRsp (self : LSRoutingProtocol) (now : Time) (lsMessage : LSMessage)
    (interfaceAd : Ipv4Address) : LSRoutingProtocol × List Effect :=
  if IsOwnAddress self lsMessage.GetHelloRsp.destinationAddress then
    let neighbor_discovered := lsMessage.GetOriginatorAddress
    let neighbourNumStr := ReverseLookup self lsMessage.GetOriginatorAddress
    let neighborNum := (extractUInt32 neighbourNumStr).getD 0
    let neighbourEntry : NeighborTableEntry :=
      { neighborAddr := neighbor_discovered, t_stamp := now, interfaceAddr := interfaceAd }
    match StdMap.find self.m_neighbors neighborNum with
    | none =>
      ({ self with m_neighbors := StdMap.insert self.m_neighbors neighborNum neighbourEntry }, [])
    | some _ =>
      ({ self with m_neighbors := StdMap.assign self.m_neighbors neighborNum neighbourEntry }, [])
  else (self, [])

/-- The emission `LSRoutingProtocol::BroadcastHello`; the local `m_maxTTL = 1`
hides the member. -/
def BroadcastHello (self : LSRoutingProtocol) : LSRoutingProtocol × List Effect :=
  let helloMessage := "HELLO"
  let m_maxTTL := 1
  let (self1, sequenceNumber) := GetNextSequenceNumber self
  let lsMessage :=
    (LSMessage.new HELLO_REQ sequenceNumber m_maxTTL self.m_mainAddress).SetHelloReq
      Ipv4Address.GetAny helloMessage
  (self1, [Effect.Broadcast lsMessage])

/-- The periodic `LSRoutingProtocol::AuditNeighbors` run at `now`. -/
def AuditNeighbors (self : LSRoutingProtocol) (now : Time) : LSRoutingProtocol × List Effect :=
  let m_neighborTimeout := Seconds 5
  let self1 :=
    { self with
      m_neighborTimeout := m_neighborTimeout
      m_neighbors :=
        StdMap.eraseWhere
          (fun neighbor_entry =>
            decide (GetMilliSeconds neighbor_entry.t_stamp + GetMilliSeconds m_neighborTimeout
              ≤ GetMilliSeconds now))
          self.m_neighbors }
  let (self2, effects) := BroadcastHello self1
  ({ self2 with m_auditNeighborsTimer := self2.m_auditNeighborsTimer.Schedule now (Seconds 5) },
    effects)

/-- The periodic `LSRoutingProtocol::AuditPings` run at `now`. -/
def AuditPings (self : LSRoutingProtocol) (now : Time) : LSRoutingProtocol × List Effect :=
  let self1 :=
    { self with
      m_pingTracker :=
        StdMap.eraseWhere
          (fun pingRequest =>
            decide (GetMilliSeconds pingRequest.GetTimestamp + GetMilliSeconds self.m_pingTimeout
              ≤ GetMilliSeconds now))
          self.m_pingTracker }
  ({ self1 with m_auditPingsTimer := self1.m_auditPingsTimer.Schedule now self1.m_pingTimeout },
    [])

/-- A received packet as `RecvLSMessage` sees it: the interface number of its
`Ipv4PacketInfoTag`, if it has the tag, and the message that `RemoveHeader`
deserialises, if the bytes decode. -/
structure Packet where
  interfaceInfo : Option Nat
  header : Option LSMessage
  deriving DecidableEq, Repr

/-- The loop of `RecvLSMessage` that finds the address of the incoming
interface: the socket entries are counted from `idx`. -/
def findIncomingInterface (incomingIf : Nat) : Nat → List Ipv4InterfaceAddress → Ipv4Address
  | _, [] => Ipv4Address.Default
  | idx, iface :: rest =>
    if idx = incomingIf then iface.GetLocal
    else findIncomingInterface incomingIf (idx + 1) rest

/-- The receive callback `LSRoutingProtocol::RecvLSMessage` run at `now`; `none`
is the process abort of `NS_ABORT_MSG`. -/
def RecvLSMessage (self : LSRoutingProtocol) (now : Time) (packet : Packet) :
    Option (LSRoutingProtocol × List Effect) :=
  match packet.interfaceInfo with
  | none => none
  | some incomingIf =>
    match packet.header with
    | none => none
    | some lsMessage =>
      let interface := findIncomingInterface incomingIf 1 self.m_socketAddresses
      match lsMessage.GetMessageType with
      | 0 => some (ProcessPingReq self lsMessage)
      | 1 => some (ProcessPingRsp self lsMessage)
      | 2 => some (ProcessHelloReq self lsMessage)
      | 3 => some (ProcessHelloRsp self now lsMessage interface)
      | _ => some (self, [])

/-- What `RouteInput` did with a packet. -/
inductive RouteDecision where
  | Dropped
  | LocalDeliver
  | NoLocalCallback
  | StaticRouted
  | NoRoute
  deriving DecidableEq, Repr

/-- The routing hook `LSRoutingProtocol::RouteInput`.  The answers of the
collaborators are parameters: whether the destination is an address of the
node, whether the local-delivery callback is null, and whether static routing
took the packet. -/
def RouteInput (self : LSRoutingProtocol) (sourceAddress : Ipv4Address)
    (isDestinationAddress lcbIsNull staticRouted : Bool) : Bool × RouteDecision :=
  if IsOwnAddress self sourceAddress = true then (true, RouteDecision.Dropped)
  else if isDestinationAddress then
    if !lcbIsNull then (true, RouteDecision.LocalDeliver)
    else (false, RouteDecision.NoLocalCallback)
  else if staticRouted then (true, RouteDecision.StaticRouted)
  else (false, RouteDecision.NoRoute)

/-- The first loop of `DoInitialize`: the first interface address that is not
the loopback address, if there is one. -/
def firstNonLoopback : List Ipv4InterfaceAddress → Option Ipv4Address
  | [] => none
  | i :: rest =>
    if i.GetLocal ≠ Ipv4Address.GetLoopback then some i.GetLocal else firstNonLoopback rest

/-- The second loop of `DoInitialize`: one socket per interface that is not the
loopback.  The socket map is keyed by the socket pointers and iterates in their
order; the sockets are listed here in the order they are created, which is the
iteration order when later sockets get higher addresses. -/
def createSockets : List Ipv4InterfaceAddress → List Ipv4InterfaceAddress
  | [] => []
  | i :: rest =>
    if i.GetLocal = Ipv4Address.GetLoopback then createSockets rest
    else i :: createSockets rest

/-- The start-up `LSRoutingProtocol::DoInitialize` run at `now` on a node whose
interfaces have the primary addresses `interfaces`; `none` is the failure of
`NS_ASSERT(m_mainAddress != Ipv4Address())`.  Binding a socket is taken to
succeed. -/
def DoInitialize (self : LSRoutingProtocol) (now : Time) (interfaces : List Ipv4InterfaceAddress) :
    Option (LSRoutingProtocol × List Effect) :=
  let mainAddress :=
    if self.m_mainAddress = Ipv4Address.Default then
      match firstNonLoopback interfaces with
      | some addr => addr
      | none => self.m_mainAddress
    else self.m_mainAddress
  if mainAddress = Ipv4Address.Default then none
  else
    let sockets := createSockets interfaces
    let canRunLS := !sockets.isEmpty
    let self1 :=
      { self with
        m_mainAddress := mainAddress
        m_recvSocket := self.m_recvSocket || canRunLS
        m_socketAddresses := self.m_socketAddresses ++ sockets }
    if canRunLS then some (AuditNeighbors self1 now)
    else some (self1, [])

/-- The number of elements stored under key `k`. -/
def StdMap.count {V : Type} (m : StdMap V) (k : Nat) : Nat :=
  (m.filter (fun e => decide (e.1 = k))).length

/-- A run of `ProcessHelloRsp` over the arrivals `(now, lsMessage, interfaceAd)`
in order. -/
def ProcessHelloRspSeq (self : LSRoutingProtocol) :
    List (Time × LSMessage × Ipv4Address) → LSRoutingProtocol
  | [] => self
  | (now, lsMessage, interfaceAd) :: rest =>
    ProcessHelloRspSeq (ProcessHelloRsp self now lsMessage interfaceAd).1 rest

/-! ## A concrete node, for the worked examples -/

/-- The address 10.0.0.1, the interface of the example node (node 1). -/
def addrA : Ipv4Address := 0x0a000001
/-- The address 10.0.0.2, of node 2. -/
def addrB : Ipv4Address := 0x0a000002
/-- The address 10.0.0.3, of node 0. -/
def addrC : Ipv4Address := 0x0a000003
/-- The address 10.0.0.9, which the directory does not know. -/
def addrX : Ipv4Address := 0x0a000009

/-- Node 1: one interface 10.0.0.1/24, a directory of the nodes 0, 1 and 2,
empty tables and the sequence counter at 0. -/
def nodeA : LSRoutingProtocol :=
  { LSRoutingProtocol.new with
    m_socketAddresses := [⟨addrA, 0xffffff00⟩]
    m_mainAddress := addrA
    m_nodeAddressMap := [(0, addrC), (1, addrA), (2, addrB)]
    m_addressNodeMap := [(addrA, 1), (addrB, 2), (addrC, 0)] }

/-- A probe that node 1 sent to node 0 at time 0 under sequence number 1 and that
was never answered. -/
def staleProbe : PingRequest := ⟨1, 0, addrC, "old"⟩

/-- Node 1 with the unanswered probe still tracked under sequence number 1 and
the counter back at 0, as it is after the counter has wrapped. -/
def nodeAStale : LSRoutingProtocol :=
  { nodeA with m_pingTracker := [(1, staleProbe)] }

/-- Node 1 with node 0 recorded as a neighbor at time 1 s. -/
def nodeAWithNeighbor : LSRoutingProtocol :=
  { nodeA with m_neighbors := [(0, ⟨addrC, addrA, Seconds 1⟩)] }

/-- A PING_REQ that node 1 originated and that is addressed to node 2. -/
def selfPingReqToB : LSMessage := (LSMessage.new PING_REQ 1 16 addrA).SetPingReq addrB "hi"

/-- A HELLO_RSP addressed to node 1 from the address the directory does not
know. -/
def helloRspFromUnknown : LSMessage :=
  (LSMessage.new HELLO_RSP 5 1 addrX).SetHelloRsp addrA "HELLO_REPLY"

/-- A HELLO_RSP addressed to node 1 from node 2. -/
def helloRspFromB : LSMessage :=
  (LSMessage.new HELLO_RSP 5 1 addrB).SetHelloRsp addrA "HELLO_REPLY"

/-- A PING_RSP with sequence number 1 addressed to node 1 from node 2. -/
def pingRspFromB : LSMessage := (LSMessage.new PING_RSP 1 16 addrB).SetPingRsp addrA "hello"

/-- The interfaces of node 1: the loopback and 10.0.0.1/24. -/
def interfacesA : List Ipv4InterfaceAddress :=
  [⟨Ipv4Address.GetLoopback, 0xff000000⟩, ⟨addrA, 0xffffff00⟩]

/-- Node 1 as constructed, with the directory set and before `DoInitialize`. -/
def bootNodeA : LSRoutingProtocol :=
  { LSRoutingProtocol.new with
    m_nodeAddressMap := [(0, addrC), (1, addrA), (2, addrB)]
    m_addressNodeMap := [(addrA, 1), (addrB, 2), (addrC, 0)] }

/-- The run that starts node 1 at time 0, issues PING 2 hello at 1 s and then
lets the neighbor audit fire at 5 s and at 10 s; no response ever arrives. -/
def startThenUnansweredPing : Option LSRoutingProtocol :=
  (DoInitialize bootNodeA 0 interfacesA).bind fun r0 =>
    (ProcessCommand r0.1 (Seconds 1) ["PING", "2", "hello"]).map fun r1 =>
      (AuditNeighbors (AuditNeighbors r1.1 (Seconds 5)).1 (Seconds 10)).1

/-- A HELLO_REQ from node 2 with sequence number 9. -/
def helloReqFromB : LSMessage :=
  (LSMessage.new HELLO_REQ 9 1 addrB).SetHelloReq Ipv4Address.GetAny "HELLO"

/-- A PING_REQ from node 2 addressed to node 1, with sequence number 4. -/
def pingReqFromB : LSMessage := (LSMessage.new PING_REQ 4 16 addrB).SetPingReq addrA "hello"

/-- Node 1 with a second interface, 192.168.1.5/16. -/
def nodeATwoInterfaces : LSRoutingProtocol :=
  { nodeA with m_socketAddresses := [⟨addrA, 0xffffff00⟩, ⟨0xc0a80105, 0xffff0000⟩] }

/-- A run of `ProcessCommand` over the commands `(now, tokens)` in order: the
final object and the effects of all commands, or `none` when one of them reads
an empty token vector. -/
def ProcessCommands (self : LSRoutingProtocol) :
    List (Time × List String) → Option (LSRoutingProtocol × List Effect)
  | [] => some (self, [])
  | (now, tokens) :: rest =>
    match ProcessCommand self now tokens with
    | none => none
    | some (self1, effects1) =>
      match ProcessCommands self1 rest with
      | none => none
      | some (self2, effects2) => some (self2, effects1 ++ effects2)

/-- The sequence numbers of the packets broadcast, in order. -/
def broadcastSequenceNumbers : List Effect → List Nat
  | [] => []
  | Effect.Broadcast packet :: rest => packet.GetSequenceNumber :: broadcastSequenceNumbers rest
  | Effect.Dump _ :: rest => broadcastSequenceNumbers rest

/-- A command that issues a probe: the first token is PING, there are at least
three tokens, a node number is extracted from the second token and it resolves
in the directory of `self`. -/
def IsResolvablePing (self : LSRoutingProtocol) (tokens : List String) : Prop :=
  ∃ nodeToken pingMessage more nodeNumber,
    tokens = "PING" :: nodeToken :: pingMessage :: more
      ∧ extractUInt32 nodeToken = some nodeNumber
      ∧ ResolveNodeIpAddress self nodeNumber ≠ Ipv4Address.GetAny

/-- The member `LSRoutingProtocol::DoDispose`. -/
def DoDispose (self : LSRoutingProtocol) : LSRoutingProtocol :=
  { self with
    m_recvSocket := false
    m_socketAddresses := []
    m_auditPingsTimer := self.m_auditPingsTimer.Cancel
    m_pingTracker := []
    m_auditNeighborsTimer := self.m_auditNeighborsTimer.Cancel }

/-- What can happen to the object after its construction: the configuration
calls, the start-up, a command, a received packet, the two timer callbacks and
the disposal. -/
inductive Event where
  | SetNodeAddressMap (nodeAddressMap : StdMap Ipv4Address)
  | SetAddressNodeMap (addressNodeMap : StdMap Nat)
  | SetMainInterface (mainAddress : Ipv4Address)
  | SetPingTimeout (pingTimeout : Time)
  | SetMaxTTL (maxTTL : Nat)
  | SetLSPort (lsPort : Nat)
  | DoInitialize (now : Time) (interfaces : List Ipv4InterfaceAddress)
  | ProcessCommand (now : Time) (tokens : List String)
  | RecvLSMessage (now : Time) (packet : Packet)
  | AuditNeighbors (now : Time)
  | AuditPings (now : Time)
  | DoDispose

/-- The object after one event, `none` when the member function called aborts
or is undefined on its input.  The attribute setters store a `uint8_t` TTL and a
`uint16_t` port. -/
def Event.apply (self : LSRoutingProtocol) : Event → Option LSRoutingProtocol
  | Event.SetNodeAddressMap nodeAddressMap => some { self with m_nodeAddressMap := nodeAddressMap }
  | Event.SetAddressNodeMap addressNodeMap => some { self with m_addressNodeMap := addressNodeMap }
  | Event.SetMainInterface mainAddress => some { self with m_mainAddress := mainAddress }
  | Event.SetPingTimeout pingTimeout => some { self with m_pingTimeout := pingTimeout }
  | Event.SetMaxTTL maxTTL => some { self with m_maxTTL := maxTTL % 256 }
  | Event.SetLSPort lsPort => some { self with m_lsPort := lsPort % 65536 }
  | Event.DoInitialize now interfaces => (LSRouting.DoInitialize self now interfaces).map Prod.fst
  | Event.ProcessCommand now tokens => (LSRouting.ProcessCommand self now tokens).map Prod.fst
  | Event.RecvLSMessage now packet => (LSRouting.RecvLSMessage self now packet).map Prod.fst
  | Event.AuditNeighbors now => some (LSRouting.AuditNeighbors self now).1
  | Event.AuditPings now => some (LSRouting.AuditPings self now).1
  | Event.DoDispose => some (LSRouting.DoDispose self)

/-- The states the object can be in: the constructed object and what events make
of a reachable state. -/
inductive Reachable : LSRoutingProtocol → Prop where
  | construct : Reachable LSRoutingProtocol.new
  | step (self self1 : LSRoutingProtocol) (event : Event) :
      Reachable self → Event.apply self event = some self1 → Reachable self1

/-- A packet that carries the tag of interface 1 and a message whose type byte is
none of the four known. -/
def unknownTypeMessage : LSMessage := LSMessage.new 7 3 1 addrB

/-- Node 2: one interface 10.0.0.2/24 and the same directory as node 1. -/
def nodeB : LSRoutingProtocol :=
  { LSRoutingProtocol.new with
    m_socketAddresses := [⟨addrB, 0xffffff00⟩]
    m_mainAddress := addrB
    m_nodeAddressMap := [(0, addrC), (1, addrA), (2, addrB)]
    m_addressNodeMap := [(addrA, 1), (addrB, 2), (addrC, 0)] }

/-! ## The wire format

The bodies of `LSMessage::Serialize`, `LSMessage::Deserialize` and
`LSMessage::GetSerializedSize` are not among the sources (`ls-message.h` only
declares them).  They are modelled from the layout of the specification: a
header of 8 bytes (type 1 byte, sequence number 2 bytes big-endian, TTL 1 byte,
originator address 4 bytes) and a payload in which an address takes 4 bytes and
a text is its length on 2 bytes big-endian followed by its bytes.  A buffer is
the list of its bytes. -/

/-- A text that fits its field: a length below 65536 and characters that are
bytes. -/
def validText (s : String) : Prop := s.length < 65536 ∧ ∀ c ∈ s.data, c.toNat < 256

instance validText.decidable (s : String) : Decidable (validText s) :=
  inferInstanceAs (Decidable (s.length < 65536 ∧ ∀ c ∈ s.data, c.toNat < 256))

/-- The payloads of a message of type `messageType` as the constructor and the
setter of that type leave them: the payload of the type, the others empty. -/
def Payloads.only (messageType : Nat) (p : Payloads) : Payloads :=
  match messageType with
  | 0 => { Payloads.empty with pingReq := p.pingReq }
  | 1 => { Payloads.empty with pingRsp := p.pingRsp }
  | 2 => { Payloads.empty with helloReq := p.helloReq }
  | 3 => { Payloads.empty with helloRsp := p.helloRsp }
  | _ => Payloads.empty

/-- A message of one of the four types whose fields are in the range of their
wire fields: 16-bit sequence number, 8-bit TTL, 32-bit addresses and a valid
text in the payload of the type. -/
def LSMessage.Valid (m : LSMessage) : Prop :=
  m.m_messageType ≤ 3 ∧ m.m_sequenceNumber < 65536 ∧ m.m_ttl < 256
    ∧ m.m_originatorAddress < 2 ^ 32
    ∧ (m.m_messageType = 0 →
        m.m_message.pingReq.destinationAddress < 2 ^ 32
          ∧ validText m.m_message.pingReq.pingMessage)
    ∧ (m.m_messageType = 1 →
        m.m_message.pingRsp.destinationAddress < 2 ^ 32
          ∧ validText m.m_message.pingRsp.pingMessage)
    ∧ (m.m_messageType = 2 →
        m.m_message.helloReq.destinationAddress < 2 ^ 32
          ∧ validText m.m_message.helloReq.helloMessage)
    ∧ (m.m_messageType = 3 →
        m.m_message.helloRsp.sourceAddress < 2 ^ 32
          ∧ m.m_message.helloRsp.destinationAddress < 2 ^ 32
          ∧ validText m.m_message.helloRsp.helloMessage)

instance LSMessage.Valid.decidable (m : LSMessage) : Decidable (LSMessage.Valid m) := by
  unfold LSMessage.Valid
  infer_instance

/-- The values returned by `n` consecutive calls of `GetNextSequenceNumber`, in
order, with the object after the last call. -/
def GetNextSequenceNumbers (self : LSRoutingProtocol) : Nat → LSRoutingProtocol × List Nat
  | 0 => (self, [])
  | n + 1 =>
    let (self1, first) := GetNextSequenceNumber self
    let (self2, others) := GetNextSequenceNumbers self1 n
    (self2, first :: others)

/-- A PING_RSP with sequence number 1 addressed to node 1 whose originator is the
unknown address and whose text is not that of any probe. -/
def pingRspFromStranger : LSMessage := (LSMessage.new PING_RSP 1 3 addrX).SetPingRsp addrA "forged"

/-- Node 1 with a directory that maps node 5 to 0.0.0.0. -/
def nodeAZeroEntry : LSRoutingProtocol :=
  { nodeA with m_nodeAddressMap := [(2, addrB), (5, 0)] }

/-- Node 1 with a second interface whose address is 102.102.102.102, the value
of a default-constructed `Ipv4Address`. -/
def nodeADefaultInterface : LSRoutingProtocol :=
  { nodeA with
    m_socketAddresses := [⟨addrA, 0xffffff00⟩, ⟨Ipv4Address.Default, 0xffffff00⟩] }

/-! ## The distance-vector engine (`dv-routing-protocol.cc`)

The second engine of the repository, embedded from its own source file.  Its
message class `DVMessage` is declared in `dv-message.h`, which is not among the
sources; under the renaming of `LSMessage` to `DVMessage` it is the same class,
and the data members of `DVRoutingProtocol` are those of `LSRoutingProtocol`
with `m_dvPort` for `m_lsPort`. -/

/-- Modelled from the spec: the class `DVMessage` (its header `dv-message.h` is
not among the sources) is `LSMessage` under the renaming of the two message
families. -/
abbrev DVMessage := LSMessage

/-- The class `DVRoutingProtocol`: the data members of `LSRoutingProtocol`, the
field `m_lsPort` standing for `m_dvPort`. -/
abbrev DVRoutingProtocol := LSRoutingProtocol

/-- The constant `DV_MAX_SEQUENCE_NUMBER`. -/
def DV_MAX_SEQUENCE_NUMBER : Nat := 0xFFFF

/-- The constant `DV_PORT_NUMBER`. -/
def DV_PORT_NUMBER : Nat := 698

/-- The lookup `DVRoutingProtocol::ResolveNodeIpAddress`. -/
def DV.ResolveNodeIpAddress (self : DVRoutingProtocol) (nodeNumber : Nat) : Ipv4Address :=
  match StdMap.find self.m_nodeAddressMap nodeNumber with
  | some addr => addr
  | none => Ipv4Address.GetAny

/-- The lookup `DVRoutingProtocol::ReverseLookup`. -/
def DV.ReverseLookup (self : DVRoutingProtocol) (ipAddress : Ipv4Address) : String :=
  match StdMap.find self.m_addressNodeMap ipAddress with
  | some nodeNumber => formatUInt32 nodeNumber
  | none => "Unknown"

/-- The test `DVRoutingProtocol::IsOwnAddress`, over the bound interfaces. -/
def DV.IsOwnAddressIn : List Ipv4InterfaceAddress → Ipv4Address → Bool
  | [], _ => false
  | interfaceAddr :: rest, originatorAddress =>
    if originatorAddress = interfaceAddr.GetLocal then true
    else DV.IsOwnAddressIn rest originatorAddress

/-- The test `DVRoutingProtocol::IsOwnAddress`. -/
def DV.IsOwnAddress (self : DVRoutingProtocol) (originatorAddress : Ipv4Address) : Bool :=
  DV.IsOwnAddressIn self.m_socketAddresses originatorAddress

/-- The counter step `DVRoutingProtocol::GetNextSequenceNumber`. -/
def DV.GetNextSequenceNumber (self : DVRoutingProtocol) : DVRoutingProtocol × Nat :=
  let next := ((self.m_currentSequenceNumber + 1) % 2 ^ 32) % (DV_MAX_SEQUENCE_NUMBER + 1)
  ({ self with m_currentSequenceNumber := next }, next)

/-- The rows that `DVRoutingProtocol::DumpNeighbors` prints, in map order. -/
def DV.DumpNeighbors (self : DVRoutingProtocol) : List (Nat × NeighborTableEntry) :=
  self.m_neighbors

/-- The command handler `DVRoutingProtocol::ProcessCommand` run at `now`; `none`
where the behaviour is undefined: an empty token vector, or a node token from
which the extraction stores nothing, `nodeNumber` being read uninitialised. -/
def DV.ProcessCommand (self : DVRoutingProtocol) (now : Time) (tokens : List String) :
    Option (DVRoutingProtocol × List Effect) :=
  match tokens with
  | [] => none
  | command :: rest =>
    if command = "PING" then
      if tokens.length < 3 then some (self, [])
      else
        match rest with
        | nodeToken :: pingMessage :: _ =>
          match extractUInt32 nodeToken with
          | none => none
          | some nodeNumber =>
            let destAddress := DV.ResolveNodeIpAddress self nodeNumber
            if destAddress ≠ Ipv4Address.GetAny then
              let (self1, sequenceNumber) := DV.GetNextSequenceNumber self
              let pingRequest : PingRequest := ⟨sequenceNumber, now, destAddress, pingMessage⟩
              let self2 :=
                { self1 with
                  m_pingTracker := StdMap.insert self1.m_pingTracker sequenceNumber pingRequest }
              let dvMessage :=
                (LSMessage.new PING_REQ sequenceNumber self.m_maxTTL self.m_mainAddress).SetPingReq
                  destAddress pingMessage
              some (self2, [Effect.Broadcast dvMessage])
            else some (self, [])
        | _ => some (self, [])
    else if command = "DUMP" then
      if tokens.length < 2 then some (self, [])
      else
        match rest with
        | table :: _ =>
          if table = "NEIGHBORS" || table = "NEIGHBOURS" then
            some (self, [Effect.Dump (DV.DumpNeighbors self)])
          else some (self, [])
        | _ => some (self, [])
    else some (self, [])

/-- The handler `DVRoutingProtocol::ProcessPingReq`. -/
def DV.ProcessPingReq (self : DVRoutingProtocol) (dvMessage : DVMessage) :
    DVRoutingProtocol × List Effect :=
  if DV.IsOwnAddress self dvMessage.GetPingReq.destinationAddress then
    let dvResp :=
      (LSMessage.new PING_RSP dvMessage.GetSequenceNumber self.m_maxTTL self.m_mainAddress).SetPingRsp
        dvMessage.GetOriginatorAddress dvMessage.GetPingReq.pingMessage
    (self, [Effect.Broadcast dvResp])
  else (self, [])

/-- The handler `DVRoutingProtocol::ProcessPingRsp`. -/
def DV.ProcessPingRsp (self : DVRoutingProtocol) (dvMessage : DVMessage) :
    DVRoutingProtocol × List Effect :=
  if DV.IsOwnAddress self dvMessage.GetPingRsp.destinationAddress then
    match StdMap.find self.m_pingTracker dvMessage.GetSequenceNumber with
    | some _ =>
      ({ self with
          m_pingTracker := StdMap.erase self.m_pingTracker dvMessage.GetSequenceNumber }, [])
    | none => (self, [])
  else (self, [])

/-- The handler `DVRoutingProtocol::ProcessHelloReq`; the local `m_maxTTL = 1`
hides the member. -/
def DV.ProcessHelloReq (self : DVRoutingProtocol) (dvMessage : DVMessage) :
    DVRoutingProtocol × List Effect :=
  let helloMessage := "HELLO_REPLY"
  let m_maxTTL := 1
  let dvResp :=
    (LSMessage.new HELLO_RSP dvMessage.GetSequenceNumber m_maxTTL self.m_mainAddress).SetHelloRsp
      dvMessage.GetOriginatorAddress helloMessage
  (self, [Effect.Broadcast dvResp])

/-- The handler `DVRoutingProtocol::ProcessHelloRsp` run at `now`; as in the
other engine the extraction into `neighborNum` always stores a value. -/
def DV.ProcessHelloRsp (self : DVRoutingProtocol) (now : Time) (dvMessage : DVMessage)
    (interfaceAd : Ipv4Address) : DVRoutingProtocol × List Effect :=
  if DV.IsOwnAddress self dvMessage.GetHelloRsp.destinationAddress then
    let neighbor_discovered := dvMessage.GetOriginatorAddress
    let neighbourNumStr := DV.ReverseLookup self dvMessage.GetOriginatorAddress
    let neighborNum := (extractUInt32 neighbourNumStr).getD 0
    let neighbourEntry : NeighborTableEntry :=
      { neighborAddr := neighbor_discovered, t_stamp := now, interfaceAddr := interfaceAd }
    match StdMap.find self.m_neighbors neighborNum with
    | none =>
      ({ self with m_neighbors := StdMap.insert self.m_neighbors neighborNum neighbourEntry }, [])
    | some _ =>
      ({ self with m_neighbors := StdMap.assign self.m_neighbors neighborNum neighbourEntry }, [])
  else (self, [])

/-- The emission `DVRoutingProtocol::BroadcastHello`. -/
def DV.BroadcastHello (self : DVRoutingProtocol) : DVRoutingProtocol × List Effect :=
  let helloMessage := "HELLO"
  let m_maxTTL := 1
  let (self1, sequenceNumber) := DV.GetNextSequenceNumber self
  let dvMessage :=
    (LSMessage.new HELLO_REQ sequenceNumber m_maxTTL self.m_mainAddress).SetHelloReq
      Ipv4Address.GetAny helloMessage
  (self1, [Effect.Broadcast dvMessage])

/-- The periodic `DVRoutingProtocol::AuditNeighbors` run at `now`. -/
def DV.AuditNeighbors (self : DVRoutingProtocol) (now : Time) : DVRoutingProtocol × List Effect :=
  let m_neighborTimeout := Seconds 5
  let self1 :=
    { self with
      m_neighborTimeout := m_neighborTimeout
      m_neighbors :=
        StdMap.eraseWhere
          (fun neighbor_entry =>
            decide (GetMilliSeconds neighbor_entry.t_stamp + GetMilliSeconds m_neighborTimeout
              ≤ GetMilliSeconds now))
          self.m_neighbors }
  let (self2, effects) := DV.BroadcastHello self1
  ({ self2 with m_auditNeighborsTimer := self2.m_auditNeighborsTimer.Schedule now (Seconds 5) },
    effects)

/-- The periodic `DVRoutingProtocol::AuditPings` run at `now`. -/
def DV.AuditPings (self : DVRoutingProtocol) (now : Time) : DVRoutingProtocol × List Effect :=
  let self1 :=
    { self with
      m_pingTracker :=
        StdMap.eraseWhere
          (fun pingRequest =>
            decide (GetMilliSeconds pingRequest.GetTimestamp + GetMilliSeconds self.m_pingTimeout
              ≤ GetMilliSeconds now))
          self.m_pingTracker }
  ({ self1 with m_auditPingsTimer := self1.m_auditPingsTimer.Schedule now self1.m_pingTimeout },
    [])

/-- The loop of `RecvDVMessage` that finds the address of the incoming
interface. -/
def DV.findIncomingInterface (incomingIf : Nat) :
    Nat → List Ipv4InterfaceAddress → Ipv4Address
  | _, [] => Ipv4Address.Default
  | idx, iface :: rest =>
    if idx = incomingIf then iface.GetLocal
    else DV.findIncomingInterface incomingIf (idx + 1) rest

/-- The receive callback `DVRoutingProtocol::RecvDVMessage` run at `now`; `none`
is the process abort of `NS_ABORT_MSG`. -/
def DV.RecvDVMessage (self : DVRoutingProtocol) (now : Time) (packet : Packet) :
    Option (DVRoutingProtocol × List Effect) :=
  match packet.interfaceInfo with
  | none => none
  | some incomingIf =>
    match packet.header with
    | none => none
    | some dvMessage =>
      let interface := DV.findIncomingInterface incomingIf 1 self.m_socketAddresses
      match dvMessage.GetMessageType with
      | 0 => some (DV.ProcessPingReq self dvMessage)
      | 1 => some (DV.ProcessPingRsp self dvMessage)
      | 2 => some (DV.ProcessHelloReq self dvMessage)
      | 3 => some (DV.ProcessHelloRsp self now dvMessage interface)
      | _ => some (self, [])

/-! # Theorems -/

/-! ## Facts about `std::map` -/

theorem StdMap.erase_cons {V : Type} (k0 : Nat) (v : V) (t : StdMap V) (k : Nat) :
    StdMap.erase ((k0, v) :: t) k
      = if k0 = k then StdMap.erase t k else (k0, v) :: StdMap.erase t k := by
  by_cases h : k0 = k <;> simp [StdMap.erase, List.filter_cons, h]

theorem StdMap.find_erase_self {V : Type} (m : StdMap V) (k : Nat) :
    StdMap.find (StdMap.erase m k) k = none := by
  induction m with
  | nil => rfl
  | cons e t ih =>
    obtain ⟨k', v⟩ := e
    rw [StdMap.erase_cons]
    by_cases h : k' = k
    · rw [if_pos h]; exact ih
    · rw [if_neg h, StdMap.find, if_neg h]; exact ih

theorem StdMap.find_erase_ne {V : Type} (m : StdMap V) (k k' : Nat) (hne : k' ≠ k) :
    StdMap.find (StdMap.erase m k) k' = StdMap.find m k' := by
  induction m with
  | nil => rfl
  | cons e t ih =>
    obtain ⟨k0, v⟩ := e
    rw [StdMap.erase_cons]
    by_cases h : k0 = k
    · have h2 : k0 ≠ k' := by omega
      rw [if_pos h, StdMap.find, if_neg h2]; exact ih
    · rw [if_neg h]
      by_cases h3 : k0 = k'
      · rw [StdMap.find, StdMap.find, if_pos h3, if_pos h3]
      · rw [StdMap.find, StdMap.find, if_neg h3, if_neg h3]; exact ih

theorem StdMap.erase_of_find_none {V : Type} (m : StdMap V) (k : Nat)
    (h : StdMap.find m k = none) : StdMap.erase m k = m := by
  induction m with
  | nil => rfl
  | cons e t ih =>
    obtain ⟨k0, v⟩ := e
    by_cases h0 : k0 = k
    · simp [StdMap.find, h0] at h
    · rw [StdMap.find, if_neg h0] at h
      rw [StdMap.erase_cons, if_neg h0, ih h]

theorem StdMap.find_insert_ne {V : Type} (m : StdMap V) (k k' : Nat) (v : V) (hne : k' ≠ k) :
    StdMap.find (StdMap.insert m k v) k' = StdMap.find m k' := by
  induction m with
  | nil => simp [StdMap.insert, StdMap.find, Ne.symm hne]
  | cons e t ih =>
    obtain ⟨k0, v0⟩ := e
    simp only [StdMap.insert]
    split
    · rw [StdMap.find, if_neg (Ne.symm hne)]
    · split
      · rfl
      · by_cases h3 : k0 = k'
        · rw [StdMap.find, StdMap.find, if_pos h3, if_pos h3]
        · rw [StdMap.find, StdMap.find, if_neg h3, if_neg h3]; exact ih

theorem StdMap.find_insert_self {V : Type} (m : StdMap V) (k : Nat) (v : V)
    (h : StdMap.find m k = none) : StdMap.find (StdMap.insert m k v) k = some v := by
  induction m with
  | nil => simp [StdMap.insert, StdMap.find]
  | cons e t ih =>
    obtain ⟨k0, v0⟩ := e
    by_cases h0 : k0 = k
    · simp [StdMap.find, h0] at h
    · rw [StdMap.find, if_neg h0] at h
      simp only [StdMap.insert]
      split
      · simp [StdMap.find]
      · split
        · omega
        · rw [StdMap.find, if_neg h0]; exact ih h

theorem StdMap.find_assign_ne {V : Type} (m : StdMap V) (k k' : Nat) (v : V) (hne : k' ≠ k) :
    StdMap.find (StdMap.assign m k v) k' = StdMap.find m k' := by
  induction m with
  | nil => rfl
  | cons e t ih =>
    obtain ⟨k0, v0⟩ := e
    by_cases h0 : k0 = k
    · have h2 : k0 ≠ k' := by omega
      rw [StdMap.assign, if_pos h0, StdMap.find, StdMap.find, if_neg h2, if_neg h2]
    · rw [StdMap.assign, if_neg h0]
      by_cases h3 : k0 = k'
      · rw [StdMap.find, StdMap.find, if_pos h3, if_pos h3]
      · rw [StdMap.find, StdMap.find, if_neg h3, if_neg h3]; exact ih

theorem StdMap.find_assign_self {V : Type} (m : StdMap V) (k : Nat) (v : V)
    (h : (StdMap.find m k).isSome = true) : StdMap.find (StdMap.assign m k v) k = some v := by
  induction m with
  | nil => simp [StdMap.find] at h
  | cons e t ih =>
    obtain ⟨k0, v0⟩ := e
    by_cases h0 : k0 = k
    · rw [StdMap.assign, if_pos h0, StdMap.find, if_pos h0]
    · rw [StdMap.find, if_neg h0] at h
      rw [StdMap.assign, if_neg h0, StdMap.find, if_neg h0]; exact ih h

theorem StdMap.eraseWhere_eq_filter {V : Type} (expired : V → Bool) (m : StdMap V) :
    StdMap.eraseWhere expired m = m.filter (fun e => !expired e.2) := by
  induction m with
  | nil => rfl
  | cons e t ih =>
    obtain ⟨k0, v0⟩ := e
    by_cases h : expired v0 = true
    · simp [StdMap.eraseWhere, List.filter_cons, h, ih]
    · simp [StdMap.eraseWhere, List.filter_cons, h, ih]

theorem StdMap.count_cons {V : Type} (k0 : Nat) (v : V) (t : StdMap V) (k : Nat) :
    StdMap.count ((k0, v) :: t) k = (if k0 = k then 1 else 0) + StdMap.count t k := by
  by_cases h : k0 = k <;> simp [StdMap.count, List.filter_cons, h, Nat.add_comm]

theorem StdMap.mem_insert {V : Type} (m : StdMap V) (k : Nat) (v : V) (e : Nat × V)
    (h : e ∈ StdMap.insert m k v) : e = (k, v) ∨ e ∈ m := by
  induction m with
  | nil => simpa [StdMap.insert] using h
  | cons e0 t ih =>
    obtain ⟨k0, v0⟩ := e0
    simp only [StdMap.insert] at h
    split at h
    · simpa using h
    · split at h
      · exact Or.inr h
      · rcases List.mem_cons.mp h with h1 | h1
        · exact Or.inr (h1 ▸ List.mem_cons_self _ _)
        · rcases ih h1 with h2 | h2
          · exact Or.inl h2
          · exact Or.inr (List.mem_cons_of_mem _ h2)

theorem StdMap.WF_insert {V : Type} (m : StdMap V) (k : Nat) (v : V) (h : StdMap.WF m) :
    StdMap.WF (StdMap.insert m k v) := by
  induction m with
  | nil => simp [StdMap.insert, StdMap.WF]
  | cons e0 t ih =>
    obtain ⟨k0, v0⟩ := e0
    have hc := List.pairwise_cons.mp h
    simp only [StdMap.insert]
    split
    · rename_i hlt
      refine List.pairwise_cons.mpr ⟨?_, h⟩
      intro e he
      rcases List.mem_cons.mp he with h1 | h1
      · subst h1; exact hlt
      · exact Nat.lt_trans hlt (hc.1 e h1)
    · split
      · exact h
      · rename_i h1 h2
        refine List.pairwise_cons.mpr ⟨?_, ih hc.2⟩
        intro e he
        rcases StdMap.mem_insert t k v e he with h3 | h3
        · subst h3; show k0 < k; omega
        · exact hc.1 e h3

theorem StdMap.keys_assign {V : Type} (m : StdMap V) (k : Nat) (v : V) :
    (StdMap.assign m k v).map Prod.fst = m.map Prod.fst := by
  induction m with
  | nil => rfl
  | cons e0 t ih =>
    obtain ⟨k0, v0⟩ := e0
    by_cases h0 : k0 = k
    · rw [StdMap.assign, if_pos h0]; rfl
    · rw [StdMap.assign, if_neg h0, List.map_cons, List.map_cons, ih]

theorem StdMap.WF_iff_keys {V : Type} (m : StdMap V) :
    StdMap.WF m ↔ List.Pairwise (fun a b => a < b) (m.map Prod.fst) := by
  unfold StdMap.WF
  rw [List.pairwise_map]

theorem StdMap.WF_assign {V : Type} (m : StdMap V) (k : Nat) (v : V) (h : StdMap.WF m) :
    StdMap.WF (StdMap.assign m k v) := by
  rw [StdMap.WF_iff_keys, StdMap.keys_assign]
  exact (StdMap.WF_iff_keys m).mp h

theorem StdMap.WF_erase {V : Type} (m : StdMap V) (k : Nat) (h : StdMap.WF m) :
    StdMap.WF (StdMap.erase m k) :=
  List.Pairwise.sublist (List.filter_sublist _) h

theorem StdMap.WF_eraseWhere {V : Type} (expired : V → Bool) (m : StdMap V) (h : StdMap.WF m) :
    StdMap.WF (StdMap.eraseWhere expired m) := by
  rw [StdMap.eraseWhere_eq_filter]
  exact List.Pairwise.sublist (List.filter_sublist _) h

theorem StdMap.count_eq_zero_of_find_none {V : Type} (m : StdMap V) (k : Nat)
    (h : StdMap.find m k = none) : StdMap.count m k = 0 := by
  induction m with
  | nil => rfl
  | cons e0 t ih =>
    obtain ⟨k0, v0⟩ := e0
    by_cases h0 : k0 = k
    · simp [StdMap.find, h0] at h
    · rw [StdMap.find, if_neg h0] at h
      rw [StdMap.count_cons, if_neg h0, ih h]

theorem StdMap.count_pos_of_find_some {V : Type} (m : StdMap V) (k : Nat)
    (h : (StdMap.find m k).isSome = true) : 1 ≤ StdMap.count m k := by
  induction m with
  | nil => simp [StdMap.find] at h
  | cons e0 t ih =>
    obtain ⟨k0, v0⟩ := e0
    by_cases h0 : k0 = k
    · rw [StdMap.count_cons, if_pos h0]; omega
    · rw [StdMap.find, if_neg h0] at h
      rw [StdMap.count_cons, if_neg h0]
      have := ih h
      omega

theorem StdMap.count_le_one_of_WF {V : Type} (m : StdMap V) (k : Nat) (h : StdMap.WF m) :
    StdMap.count m k ≤ 1 := by
  induction m with
  | nil => simp [StdMap.count]
  | cons e0 t ih =>
    obtain ⟨k0, v0⟩ := e0
    have hc := List.pairwise_cons.mp h
    rw [StdMap.count_cons]
    by_cases h0 : k0 = k
    · rw [if_pos h0]
      have hz : StdMap.count t k = 0 := by
        unfold StdMap.count
        rw [List.length_eq_zero, List.filter_eq_nil_iff]
        intro e he
        have := hc.1 e he
        simp only [decide_eq_true_eq]
        omega
      omega
    · rw [if_neg h0]
      have := ih hc.2
      omega

theorem StdMap.count_assign {V : Type} (m : StdMap V) (k k' : Nat) (v : V) :
    StdMap.count (StdMap.assign m k v) k' = StdMap.count m k' := by
  induction m with
  | nil => rfl
  | cons e0 t ih =>
    obtain ⟨k0, v0⟩ := e0
    by_cases h0 : k0 = k
    · rw [StdMap.assign, if_pos h0, StdMap.count_cons, StdMap.count_cons]
    · rw [StdMap.assign, if_neg h0, StdMap.count_cons, StdMap.count_cons, ih]

theorem StdMap.count_insert_self {V : Type} (m : StdMap V) (k : Nat) (v : V)
    (h : StdMap.find m k = none) : StdMap.count (StdMap.insert m k v) k = 1 := by
  induction m with
  | nil => simp [StdMap.insert, StdMap.count]
  | cons e0 t ih =>
    obtain ⟨k0, v0⟩ := e0
    by_cases h0 : k0 = k
    · simp [StdMap.find, h0] at h
    · have hz := StdMap.count_eq_zero_of_find_none _ _ h
      rw [StdMap.find, if_neg h0] at h
      rw [StdMap.count_cons, if_neg h0] at hz
      simp only [StdMap.insert]
      split
      · rw [StdMap.count_cons, StdMap.count_cons, if_neg h0]; simp; omega
      · split
        · omega
        · rw [StdMap.count_cons, if_neg h0, ih h]

theorem StdMap.insert_of_find_some {V : Type} (m : StdMap V) (k : Nat) (v : V)
    (hwf : StdMap.WF m) (h : (StdMap.find m k).isSome = true) : StdMap.insert m k v = m := by
  induction m with
  | nil => simp [StdMap.find] at h
  | cons e0 t ih =>
    obtain ⟨k0, v0⟩ := e0
    have hc := List.pairwise_cons.mp hwf
    by_cases h0 : k0 = k
    · subst h0
      simp [StdMap.insert]
    · rw [StdMap.find, if_neg h0] at h
      have hlt : k0 < k := by
        have h1 := StdMap.count_pos_of_find_some t k h
        unfold StdMap.count at h1
        obtain ⟨e, he⟩ := List.exists_mem_of_length_pos (Nat.lt_of_lt_of_le Nat.zero_lt_one h1)
        have h2 := List.mem_filter.mp he
        have h3 := hc.1 e h2.1
        have h4 : e.1 = k := by simpa using h2.2
        omega
      simp only [StdMap.insert]
      rw [if_neg (by omega), if_neg (by omega), ih hc.2 h]

/-! ## Facts about the decimal text of node numbers -/

theorem digitChar_facts :
    ∀ d, d < 10 → (digitChar d).isDigit = true ∧ (digitChar d).toNat - 48 = d
      ∧ isSpace (digitChar d) = false ∧ digitChar d ≠ Char.ofNat 45
      ∧ digitChar d ≠ Char.ofNat 43 := by
  decide

theorem decimalDigits_spec (fuel : Nat) :
    ∀ (n : Nat) (acc : List Char), 0 < fuel → n < 10 ^ fuel →
      ∃ d rest k, d < 10 ∧ decimalDigits fuel n acc = digitChar d :: rest
        ∧ ∀ a, readDigits (decimalDigits fuel n acc) a = readDigits acc (a * 10 ^ k + n) := by
  induction fuel with
  | zero => intro n acc h; omega
  | succ fuel ih =>
    intro n acc _ hn
    have hd : n % 10 < 10 := Nat.mod_lt _ (by omega)
    obtain ⟨hdig, hval, -, -, -⟩ := digitChar_facts (n % 10) hd
    by_cases h0 : n / 10 = 0
    · refine ⟨n % 10, acc, 1, hd, by rw [decimalDigits, if_pos h0], ?_⟩
      intro a
      rw [decimalDigits, if_pos h0, readDigits, if_pos hdig, hval]
      congr 1
      omega
    · have hfuel : 0 < fuel := by
        rcases Nat.eq_zero_or_pos fuel with hz | hz
        · subst hz
          simp at hn
          omega
        · exact hz
      have hlt : n / 10 < 10 ^ fuel := by
        rw [Nat.div_lt_iff_lt_mul (by omega)]
        rw [pow_succ] at hn
        exact hn
      obtain ⟨d, rest, k, hd', heq, hread⟩ := ih (n / 10) (digitChar (n % 10) :: acc) hfuel hlt
      refine ⟨d, rest, k + 1, hd', by rw [decimalDigits, if_neg h0]; exact heq, ?_⟩
      intro a
      rw [decimalDigits, if_neg h0, hread a, readDigits, if_pos hdig, hval]
      congr 1
      rw [pow_succ]
      have := Nat.div_add_mod n 10
      nlinarith [this]

theorem extractUInt32_formatUInt32 (n : Nat) (h : n < 2 ^ 32) :
    extractUInt32 (formatUInt32 n) = some n := by
  have hmod : n % 2 ^ 32 = n := Nat.mod_eq_of_lt h
  obtain ⟨d, rest, k, hd, heq, hread⟩ :=
    decimalDigits_spec 10 n [] (by decide) (by omega)
  obtain ⟨hdig, -, hsp, hminus, hplus⟩ := digitChar_facts d hd
  have hv : readDigits (digitChar d :: rest) 0 = n := by
    have := hread 0
    rw [heq] at this
    rw [this]
    simp [readDigits]
  unfold extractUInt32 formatUInt32
  rw [hmod, heq, List.dropWhile_cons_of_neg (by simp [hsp])]
  simp only [hminus, hplus, if_false, extractDigits, hdig, if_true]
  rw [hv]
  have : ¬ n > 0xFFFFFFFF := by omega
  simp [this]

theorem extractUInt32_Unknown : extractUInt32 "Unknown" = some 0 := by decide

/-- An empty text and a text of blanks store nothing. -/
theorem extractUInt32_blank : extractUInt32 "" = none ∧ extractUInt32 " " = none
    ∧ extractUInt32 "  \t " = none := by
  decide

/-! ## Self-originated messages (C1) -/

/-- The routing hook drops every packet whose IP source is an address of the
node itself: it reports the packet as handled and delivers it nowhere. -/
theorem RouteInput_own_source (self : LSRoutingProtocol) (sourceAddress : Ipv4Address)
    (isDestinationAddress lcbIsNull staticRouted : Bool)
    (hown : IsOwnAddress self sourceAddress = true) :
    RouteInput self sourceAddress isDestinationAddress lcbIsNull staticRouted
      = (true, RouteDecision.Dropped) := by
  simp [RouteInput, hown]

/-- A HELLO_RSP addressed to this node from an address that the directory does
not know is recorded under node number 0: the text "Unknown" is not a number
and the failed extraction leaves 0. -/
theorem ProcessHelloRsp_unknown_peer (self : LSRoutingProtocol) (now : Time)
    (lsMessage : LSMessage) (interfaceAd : Ipv4Address)
    (hown : IsOwnAddress self lsMessage.GetHelloRsp.destinationAddress = true)
    (hunknown : StdMap.find self.m_addressNodeMap lsMessage.GetOriginatorAddress = none) :
    StdMap.find (ProcessHelloRsp self now lsMessage interfaceAd).1.m_neighbors 0
      = some ⟨lsMessage.GetOriginatorAddress, interfaceAd, now⟩ := by
  have hrev : ReverseLookup self lsMessage.GetOriginatorAddress = "Unknown" := by
    simp [ReverseLookup, hunknown]
  simp only [ProcessHelloRsp, hown, if_true, hrev, extractUInt32_Unknown, Option.getD_some]
  cases hf : StdMap.find self.m_neighbors 0 with
  | none => exact StdMap.find_insert_self _ _ _ hf
  | some e => exact StdMap.find_assign_self _ _ _ (by simp [hf])

/-- C2, failing input: node 1 has node 0 (10.0.0.3) in its neighbor table and
receives a HELLO_RSP addressed to it from 10.0.0.9, which the directory does not
know.  `ReverseLookup` answers "Unknown", and the entry of node 0 is overwritten
with the unknown address instead of the message being dropped. -/
theorem ProcessHelloRsp_unknown_peer_overwrites_node_zero :
    IsOwnAddress nodeAWithNeighbor helloRspFromUnknown.GetHelloRsp.destinationAddress = true
      ∧ StdMap.find nodeAWithNeighbor.m_addressNodeMap helloRspFromUnknown.GetOriginatorAddress
          = none
      ∧ ReverseLookup nodeAWithNeighbor helloRspFromUnknown.GetOriginatorAddress = "Unknown"
      ∧ nodeAWithNeighbor.m_neighbors = [(0, ⟨addrC, addrA, Seconds 1⟩)]
      ∧ (ProcessHelloRsp nodeAWithNeighbor (Seconds 7) helloRspFromUnknown addrA).1.m_neighbors
          = [(0, ⟨addrX, addrA, Seconds 7⟩)]
      ∧ (ProcessHelloRsp nodeA (Seconds 7) helloRspFromUnknown addrA).1.m_neighbors
          = [(0, ⟨addrX, addrA, Seconds 7⟩)] := by
  refine ⟨by decide, by decide, by decide, by decide, by decide, by decide⟩

/-! ## Issuing a probe (C3, C4) -/

/-- A PING command with at least three tokens whose node number resolves: the
counter is stepped, the new probe is handed to `insert` under the number
allocated, and one PING_REQ with that number, destination and text is
broadcast. -/
theorem ProcessCommand_ping (self : LSRoutingProtocol) (now : Time)
    (nodeToken pingMessage : String) (more : List String) (nodeNumber : Nat)
    (hread : extractUInt32 nodeToken = some nodeNumber)
    (hres : ResolveNodeIpAddress self nodeNumber ≠ Ipv4Address.GetAny) :
    ProcessCommand self now ("PING" :: nodeToken :: pingMessage :: more)
      = some ({ (GetNextSequenceNumber self).1 with
                m_pingTracker :=
                  StdMap.insert self.m_pingTracker (GetNextSequenceNumber self).2
                    ⟨(GetNextSequenceNumber self).2, now,
                      ResolveNodeIpAddress self nodeNumber, pingMessage⟩ },
          [Effect.Broadcast
              ((LSMessage.new PING_REQ (GetNextSequenceNumber self).2 self.m_maxTTL
                self.m_mainAddress).SetPingReq
                (ResolveNodeIpAddress self nodeNumber) pingMessage)]) := by
  simp only [ProcessCommand, if_true, List.length_cons, hread]
  rw [if_neg (by omega), if_pos hres]
  rfl

/-- A PING command with at least three tokens from whose node token the
extraction stores nothing: `nodeNumber` is read uninitialised, the behaviour is
undefined. -/
theorem ProcessCommand_ping_blank (self : LSRoutingProtocol) (now : Time)
    (nodeToken pingMessage : String) (more : List String)
    (hread : extractUInt32 nodeToken = none) :
    ProcessCommand self now ("PING" :: nodeToken :: pingMessage :: more) = none := by
  simp only [ProcessCommand, if_true, List.length_cons, hread]
  rw [if_neg (by omega)]

/-- When the tracker has nothing under the next sequence number, the PING
command stores the new probe there. -/
theorem ProcessCommand_ping_fresh (self : LSRoutingProtocol) (now : Time)
    (nodeToken pingMessage : String) (more : List String) (nodeNumber : Nat)
    (hread : extractUInt32 nodeToken = some nodeNumber)
    (hres : ResolveNodeIpAddress self nodeNumber ≠ Ipv4Address.GetAny)
    (hfresh : StdMap.find self.m_pingTracker (GetNextSequenceNumber self).2 = none) :
    (ProcessCommand self now ("PING" :: nodeToken :: pingMessage :: more)).map
        (fun r => StdMap.find r.1.m_pingTracker (GetNextSequenceNumber self).2)
      = some (some ⟨(GetNextSequenceNumber self).2, now,
                ResolveNodeIpAddress self nodeNumber, pingMessage⟩) := by
  rw [ProcessCommand_ping self now nodeToken pingMessage more nodeNumber hread hres]
  simp only [Option.map_some']
  exact congrArg some (StdMap.find_insert_self _ _ _ hfresh)

/-- When the tracker is a well-formed map that already has an element under the
next sequence number, the PING command leaves the tracker as it was. -/
theorem ProcessCommand_ping_stale (self : LSRoutingProtocol) (now : Time)
    (nodeToken pingMessage : String) (more : List String) (nodeNumber : Nat)
    (hread : extractUInt32 nodeToken = some nodeNumber)
    (hres : ResolveNodeIpAddress self nodeNumber ≠ Ipv4Address.GetAny)
    (hwf : StdMap.WF self.m_pingTracker)
    (hstale : (StdMap.find self.m_pingTracker (GetNextSequenceNumber self).2).isSome = true) :
    (ProcessCommand self now ("PING" :: nodeToken :: pingMessage :: more)).map
        (fun r => r.1.m_pingTracker) = some self.m_pingTracker := by
  rw [ProcessCommand_ping self now nodeToken pingMessage more nodeNumber hread hres]
  simp only [Option.map_some']
  exact congrArg some (StdMap.insert_of_find_some _ _ _ hwf hstale)

/-- C3, failing input: node 1 still tracks an unanswered probe to node 0 under
sequence number 1 and its counter has wrapped to 0.  The command PING 2 hello
allocates sequence number 1 and broadcasts a PING_REQ for node 2 with it, but
the tracker keeps the old probe under 1: the new probe is not stored. -/
theorem ProcessCommand_ping_keeps_stale_probe :
    ProcessCommand nodeAStale (Seconds 7) ["PING", "2", "hello"]
        = some ({ nodeAStale with m_currentSequenceNumber := 1 },
            [Effect.Broadcast ((LSMessage.new PING_REQ 1 16 addrA).SetPingReq addrB "hello")])
      ∧ (GetNextSequenceNumber nodeAStale).2 = 1
      ∧ StdMap.find ({ nodeAStale with m_currentSequenceNumber := 1 }).m_pingTracker 1
          = some staleProbe
      ∧ staleProbe ≠ ⟨1, Seconds 7, addrB, "hello"⟩ := by
  refine ⟨by decide, by decide, by decide, by decide⟩

/-- C4, failing input: on the node that still tracks the old probe to node 0
under sequence number 1, the command PING 2 hello followed at once by the
PING_RSP of node 2 with sequence number 1: the response finds and removes the
old probe (to node 0, text "old", issued at 0), not the probe just issued (to
node 2, text "hello", issued at 7 s), which was never tracked. -/
theorem ping_then_response_retires_stale_probe :
    (ProcessCommand nodeAStale (Seconds 7) ["PING", "2", "hello"]).map
        (fun r => StdMap.find r.1.m_pingTracker pingRspFromB.GetSequenceNumber)
        = some (some staleProbe)
      ∧ staleProbe.m_destinationAddress ≠ addrB
      ∧ staleProbe.m_pingMessage ≠ "hello"
      ∧ staleProbe.m_timestamp ≠ Seconds 7
      ∧ (ProcessCommand nodeAStale (Seconds 7) ["PING", "2", "hello"]).map
          (fun r => (ProcessPingRsp r.1 pingRspFromB).1.m_pingTracker) = some []
      ∧ (ProcessCommand nodeAStale (Seconds 7) ["PING", "2", "hello"]).map
          (fun r => (ProcessPingRsp (ProcessPingRsp r.1 pingRspFromB).1 pingRspFromB).1.m_pingTracker)
          = some [] := by
  refine ⟨by decide, by decide, by decide, by decide, by decide, by decide⟩
theorem StdMap.erase_insert_self {V : Type} (m : StdMap V) (k : Nat) (v : V)
    (h : StdMap.find m k = none) : StdMap.erase (StdMap.insert m k v) k = m := by
  induction m with
  | nil => simp [StdMap.insert, StdMap.erase]
  | cons e0 t ih =>
    obtain ⟨k0, v0⟩ := e0
    by_cases h0 : k0 = k
    · simp [StdMap.find, h0] at h
    · have hall := StdMap.erase_of_find_none _ _ h
      rw [StdMap.find, if_neg h0] at h
      simp only [StdMap.insert]
      split
      · rw [StdMap.erase_cons, if_pos rfl, hall]
      · split
        · omega
        · rw [StdMap.erase_cons, if_neg h0, ih h]

theorem IsOwnAddress_congr (s1 s2 : LSRoutingProtocol) (a : Ipv4Address)
    (h : s1.m_socketAddresses = s2.m_socketAddresses) : IsOwnAddress s1 a = IsOwnAddress s2 a := by
  unfold IsOwnAddress
  rw [h]

theorem ProcessPingRsp_found (self : LSRoutingProtocol) (lsMessage : LSMessage) (p : PingRequest)
    (hown : IsOwnAddress self lsMessage.GetPingRsp.destinationAddress = true)
    (hp : StdMap.find self.m_pingTracker lsMessage.GetSequenceNumber = some p) :
    ProcessPingRsp self lsMessage
      = ({ self with
            m_pingTracker := StdMap.erase self.m_pingTracker lsMessage.GetSequenceNumber }, []) := by
  simp [ProcessPingRsp, hown, hp]

theorem ProcessPingRsp_absent (self : LSRoutingProtocol) (lsMessage : LSMessage)
    (hp : StdMap.find self.m_pingTracker lsMessage.GetSequenceNumber = none) :
    ProcessPingRsp self lsMessage = (self, []) := by
  unfold ProcessPingRsp
  split
  · rw [hp]
  · rfl

/-- Issuing a probe and then handling a PING_RSP addressed to this node with the
number allocated, when the tracker had nothing under that number: the response
finds the probe just issued and removes it, which gives back the tracker from
before the command, and a second response with the same number changes
nothing. -/
theorem ping_then_response_fresh (self : LSRoutingProtocol) (now : Time)
    (nodeToken pingMessage : String) (more : List String) (rsp : LSMessage) (nodeNumber : Nat)
    (hread : extractUInt32 nodeToken = some nodeNumber)
    (hres : ResolveNodeIpAddress self nodeNumber ≠ Ipv4Address.GetAny)
    (hfresh : StdMap.find self.m_pingTracker (GetNextSequenceNumber self).2 = none)
    (hown : IsOwnAddress self rsp.GetPingRsp.destinationAddress = true)
    (hseq : rsp.GetSequenceNumber = (GetNextSequenceNumber self).2) :
    ∃ self1 effects,
      ProcessCommand self now ("PING" :: nodeToken :: pingMessage :: more) = some (self1, effects)
        ∧ StdMap.find self1.m_pingTracker rsp.GetSequenceNumber
            = some ⟨(GetNextSequenceNumber self).2, now,
                ResolveNodeIpAddress self nodeNumber, pingMessage⟩
        ∧ (ProcessPingRsp self1 rsp).1.m_pingTracker = self.m_pingTracker
        ∧ StdMap.find (ProcessPingRsp self1 rsp).1.m_pingTracker rsp.GetSequenceNumber = none
        ∧ ProcessPingRsp (ProcessPingRsp self1 rsp).1 rsp = ((ProcessPingRsp self1 rsp).1, []) := by
  refine ⟨_, _, ProcessCommand_ping self now nodeToken pingMessage more nodeNumber hread hres, ?_⟩
  have key : ∀ self1 : LSRoutingProtocol,
      self1.m_socketAddresses = self.m_socketAddresses →
      self1.m_pingTracker
        = StdMap.insert self.m_pingTracker (GetNextSequenceNumber self).2
            ⟨(GetNextSequenceNumber self).2, now,
              ResolveNodeIpAddress self nodeNumber, pingMessage⟩ →
      StdMap.find self1.m_pingTracker rsp.GetSequenceNumber
            = some ⟨(GetNextSequenceNumber self).2, now,
                ResolveNodeIpAddress self nodeNumber, pingMessage⟩
        ∧ (ProcessPingRsp self1 rsp).1.m_pingTracker = self.m_pingTracker
        ∧ StdMap.find (ProcessPingRsp self1 rsp).1.m_pingTracker rsp.GetSequenceNumber = none
        ∧ ProcessPingRsp (ProcessPingRsp self1 rsp).1 rsp
            = ((ProcessPingRsp self1 rsp).1, []) := by
    intro self1 hsock htr
    have hfind : StdMap.find self1.m_pingTracker rsp.GetSequenceNumber
        = some ⟨(GetNextSequenceNumber self).2, now,
            ResolveNodeIpAddress self nodeNumber, pingMessage⟩ := by
      rw [htr, hseq]; exact StdMap.find_insert_self _ _ _ hfresh
    have hown1 : IsOwnAddress self1 rsp.GetPingRsp.destinationAddress = true := by
      rw [IsOwnAddress_congr self1 self _ hsock]; exact hown
    have hafter : (ProcessPingRsp self1 rsp).1.m_pingTracker = self.m_pingTracker := by
      rw [ProcessPingRsp_found self1 rsp _ hown1 hfind]
      show StdMap.erase self1.m_pingTracker rsp.GetSequenceNumber = self.m_pingTracker
      rw [htr, hseq]; exact StdMap.erase_insert_self _ _ _ hfresh
    have hnone : StdMap.find (ProcessPingRsp self1 rsp).1.m_pingTracker rsp.GetSequenceNumber
        = none := by
      rw [hafter, hseq]; exact hfresh
    exact ⟨hfind, hafter, hnone, ProcessPingRsp_absent _ _ hnone⟩
  exact key _ rfl rfl

/-! ## Handling a probe response (C5) -/

/-- C5: `ProcessPingRsp` on a message whose destination is an own address and
whose sequence number is tracked removes what the tracker holds under that
number and leaves every other element as it was; the tracker is unchanged when
the number is not tracked or the destination is not an own address; in every
case the neighbor table and the sequence counter are unchanged and nothing is
broadcast. -/
theorem ProcessPingRsp_spec (self : LSRoutingProtocol) (lsMessage : LSMessage) :
    (IsOwnAddress self lsMessage.GetPingRsp.destinationAddress = true →
        (StdMap.find self.m_pingTracker lsMessage.GetSequenceNumber).isSome = true →
        (ProcessPingRsp self lsMessage).1.m_pingTracker
            = self.m_pingTracker.filter (fun e => decide (e.1 ≠ lsMessage.GetSequenceNumber))
          ∧ StdMap.find (ProcessPingRsp self lsMessage).1.m_pingTracker
              lsMessage.GetSequenceNumber = none
          ∧ ∀ k, k ≠ lsMessage.GetSequenceNumber →
              StdMap.find (ProcessPingRsp self lsMessage).1.m_pingTracker k
                = StdMap.find self.m_pingTracker k)
      ∧ (IsOwnAddress self lsMessage.GetPingRsp.destinationAddress = false
          ∨ StdMap.find self.m_pingTracker lsMessage.GetSequenceNumber = none →
        (ProcessPingRsp self lsMessage).1.m_pingTracker = self.m_pingTracker)
      ∧ (ProcessPingRsp self lsMessage).1.m_neighbors = self.m_neighbors
      ∧ (ProcessPingRsp self lsMessage).1.m_currentSequenceNumber = self.m_currentSequenceNumber
      ∧ (ProcessPingRsp self lsMessage).2 = [] := by
  refine ⟨?_, ?_, ?_, ?_, ?_⟩
  · intro hown hsome
    obtain ⟨p, hp⟩ := Option.isSome_iff_exists.mp hsome
    have htr : (ProcessPingRsp self lsMessage).1.m_pingTracker
        = StdMap.erase self.m_pingTracker lsMessage.GetSequenceNumber := by
      simp [ProcessPingRsp, hown, hp]
    rw [htr]
    exact ⟨rfl, StdMap.find_erase_self _ _, fun k hk => StdMap.find_erase_ne _ _ _ hk⟩
  · intro h
    rcases h with h | h
    · simp [ProcessPingRsp, h]
    · unfold ProcessPingRsp
      split
      · rw [h]
      · rfl
  · unfold ProcessPingRsp
    split
    · split <;> rfl
    · rfl
  · unfold ProcessPingRsp
    split
    · split <;> rfl
    · rfl
  · unfold ProcessPingRsp
    split
    · split <;> rfl
    · rfl

/-- C5, witness: on the node that tracks a probe under sequence number 1, the
PING_RSP of node 2 with that number empties the tracker. -/
theorem ProcessPingRsp_spec_witness :
    (ProcessPingRsp nodeAStale pingRspFromB).1.m_pingTracker = []
      ∧ StdMap.find (ProcessPingRsp nodeAStale pingRspFromB).1.m_pingTracker 1 = none :=
  ⟨((ProcessPingRsp_spec nodeAStale pingRspFromB).1 (by decide) (by decide)).1,
    ((ProcessPingRsp_spec nodeAStale pingRspFromB).1 (by decide) (by decide)).2.1⟩

theorem StdMap.mem_of_find_some {V : Type} (m : StdMap V) (k : Nat) (v : V)
    (h : StdMap.find m k = some v) : (k, v) ∈ m := by
  induction m with
  | nil => simp [StdMap.find] at h
  | cons e0 t ih =>
    obtain ⟨k0, v0⟩ := e0
    by_cases h0 : k0 = k
    · rw [StdMap.find, if_pos h0] at h
      cases h
      subst h0
      exact List.mem_cons_self _ _
    · rw [StdMap.find, if_neg h0] at h
      exact List.mem_cons_of_mem _ (ih h)

theorem StdMap.value_unique_of_WF {V : Type} (m : StdMap V) (k : Nat) (v v' : V)
    (hwf : StdMap.WF m) (h1 : (k, v) ∈ m) (h2 : (k, v') ∈ m) : v = v' := by
  induction m with
  | nil => cases h1
  | cons e0 t ih =>
    have hc := List.pairwise_cons.mp hwf
    rcases List.mem_cons.mp h1 with a1 | a1 <;> rcases List.mem_cons.mp h2 with a2 | a2
    · have := a1.trans a2.symm
      exact (Prod.mk.inj this).2
    · have := hc.1 _ a2
      rw [← a1] at this
      exact absurd this (Nat.lt_irrefl _)
    · have := hc.1 _ a1
      rw [← a2] at this
      exact absurd this (Nat.lt_irrefl _)
    · exact ih hc.2 a1 a2

theorem StdMap.find_filter_none_of_WF {V : Type} (m : StdMap V) (p : Nat × V → Bool)
    (e : Nat × V) (hwf : StdMap.WF m) (he : e ∈ m) (hp : p e = false) :
    StdMap.find (m.filter p) e.1 = none := by
  cases hf : StdMap.find (m.filter p) e.1 with
  | none => rfl
  | some v =>
    have hmem := List.mem_filter.mp (StdMap.mem_of_find_some _ _ _ hf)
    have hv : e.2 = v := StdMap.value_unique_of_WF m e.1 e.2 v hwf he hmem.1
    have : p e = true := by
      have h2 := hmem.2
      rw [← hv] at h2
      exact h2
    rw [hp] at this
    cases this

/-! ## The audits (C6, C7) -/

theorem ms_age_expired (now t : Nat) (h : t + 5000 * 1000000 ≤ now) :
    ¬ (now / 1000000 - t / 1000000 < 5000) := by
  omega

theorem ms_age_young (now t : Nat) (h : now ≤ t + 4999 * 1000000) :
    now / 1000000 - t / 1000000 < 5000 := by
  omega

theorem ms_deadline_passed (now t w : Nat) (h : t + w ≤ now) :
    ¬ (t / 1000000 + w / 1000000 > now / 1000000) := by
  omega

theorem AuditNeighbors_neighbors (self : LSRoutingProtocol) (now : Time) :
    (AuditNeighbors self now).1.m_neighbors
      = self.m_neighbors.filter
          (fun e => !decide (GetMilliSeconds e.2.t_stamp + GetMilliSeconds (Seconds 5)
            ≤ GetMilliSeconds now)) := by
  exact StdMap.eraseWhere_eq_filter _ self.m_neighbors

theorem AuditPings_tracker (self : LSRoutingProtocol) (now : Time) :
    (AuditPings self now).1.m_pingTracker
      = self.m_pingTracker.filter
          (fun e => !decide (GetMilliSeconds e.2.GetTimestamp + GetMilliSeconds self.m_pingTimeout
            ≤ GetMilliSeconds now)) := by
  exact StdMap.eraseWhere_eq_filter _ self.m_pingTracker

/-- C6: after `AuditNeighbors` at `now` the neighbor table consists of exactly
the prior entries whose age, between the whole-millisecond readings of the two
instants, is below 5000 ms, each unchanged and in the same order.  An entry with
`now - t_stamp >= 5000 ms` is removed (and nothing is left under its node number
in a well-formed table), an entry with `now - t_stamp <= 4999 ms` is kept: an
entry stamped at T is present after an audit at T + 4999 ms and absent after an
audit at T + 5000 ms or later. -/
theorem AuditNeighbors_expiry (self : LSRoutingProtocol) (now : Time) :
    (AuditNeighbors self now).1.m_neighbors
        = self.m_neighbors.filter
            (fun e => decide (GetMilliSeconds now - GetMilliSeconds e.2.t_stamp < 5000))
      ∧ (∀ e ∈ self.m_neighbors, e.2.t_stamp + MilliSeconds 5000 ≤ now →
          e ∉ (AuditNeighbors self now).1.m_neighbors
            ∧ (StdMap.WF self.m_neighbors →
                StdMap.find (AuditNeighbors self now).1.m_neighbors e.1 = none))
      ∧ (∀ e ∈ self.m_neighbors, now ≤ e.2.t_stamp + MilliSeconds 4999 →
          e ∈ (AuditNeighbors self now).1.m_neighbors) := by
  have h5 : GetMilliSeconds (Seconds 5) = 5000 := by decide
  have hpred : ∀ e : Nat × NeighborTableEntry,
      (!decide (GetMilliSeconds e.2.t_stamp + GetMilliSeconds (Seconds 5) ≤ GetMilliSeconds now))
        = decide (GetMilliSeconds now - GetMilliSeconds e.2.t_stamp < 5000) := by
    intro e
    rw [h5]
    by_cases h : GetMilliSeconds e.2.t_stamp + 5000 ≤ GetMilliSeconds now
    · have h2 : ¬ (GetMilliSeconds now - GetMilliSeconds e.2.t_stamp < 5000) := by omega
      simp [h, h2]
    · have h2 : GetMilliSeconds now - GetMilliSeconds e.2.t_stamp < 5000 := by omega
      simp [h, h2]
  have hfilter : (AuditNeighbors self now).1.m_neighbors
        = self.m_neighbors.filter
            (fun e => decide (GetMilliSeconds now - GetMilliSeconds e.2.t_stamp < 5000)) := by
    rw [AuditNeighbors_neighbors]
    exact List.filter_congr (fun e _ => hpred e)
  refine ⟨hfilter, ?_, ?_⟩
  · intro e he hold
    have hp : decide (GetMilliSeconds now - GetMilliSeconds e.2.t_stamp < 5000) = false := by
      rw [decide_eq_false_iff_not]
      exact ms_age_expired now e.2.t_stamp hold
    rw [hfilter]
    refine ⟨?_, ?_⟩
    · intro hmem
      have := (List.mem_filter.mp hmem).2
      rw [hp] at this
      cases this
    · intro hwf
      exact StdMap.find_filter_none_of_WF _ _ e hwf he hp
  · intro e he hyoung
    rw [hfilter]
    refine List.mem_filter.mpr ⟨he, ?_⟩
    rw [decide_eq_true_eq]
    exact ms_age_young now e.2.t_stamp hyoung

/-- C6, witness: the neighbor recorded at 1 s is still in the table after an
audit at 1 s + 4999 ms and gone after an audit at 6 s. -/
theorem AuditNeighbors_expiry_witness :
    ((0, ⟨addrC, addrA, Seconds 1⟩) ∈
        (AuditNeighbors nodeAWithNeighbor (Seconds 1 + MilliSeconds 4999)).1.m_neighbors)
      ∧ ((0, ⟨addrC, addrA, Seconds 1⟩) ∉
          (AuditNeighbors nodeAWithNeighbor (Seconds 6)).1.m_neighbors)
      ∧ StdMap.find (AuditNeighbors nodeAWithNeighbor (Seconds 6)).1.m_neighbors 0 = none :=
  ⟨(AuditNeighbors_expiry nodeAWithNeighbor (Seconds 1 + MilliSeconds 4999)).2.2
      (0, ⟨addrC, addrA, Seconds 1⟩) (by decide) (by decide),
    ((AuditNeighbors_expiry nodeAWithNeighbor (Seconds 6)).2.1
      (0, ⟨addrC, addrA, Seconds 1⟩) (by decide) (by decide)).1,
    ((AuditNeighbors_expiry nodeAWithNeighbor (Seconds 6)).2.1
      (0, ⟨addrC, addrA, Seconds 1⟩) (by decide) (by decide)).2 (by decide)⟩

/-- C7: after `AuditPings` at `now` the tracker consists of exactly the prior
probes with `issuedAt + W > now`, the three times read in whole milliseconds and
`W` being the configured `m_pingTimeout`, each unchanged and in the same order.
A probe issued at T is no longer in the tracker after an audit at any
`now >= T + W` (and nothing is left under its sequence number in a well-formed
tracker). -/
theorem AuditPings_timeout (self : LSRoutingProtocol) (now : Time) :
    (AuditPings self now).1.m_pingTracker
        = self.m_pingTracker.filter
            (fun e => decide (GetMilliSeconds e.2.m_timestamp
              + GetMilliSeconds self.m_pingTimeout > GetMilliSeconds now))
      ∧ (∀ e ∈ self.m_pingTracker, e.2.m_timestamp + self.m_pingTimeout ≤ now →
          e ∉ (AuditPings self now).1.m_pingTracker
            ∧ (StdMap.WF self.m_pingTracker →
                StdMap.find (AuditPings self now).1.m_pingTracker e.1 = none)) := by
  have hpred : ∀ e : Nat × PingRequest,
      (!decide (GetMilliSeconds e.2.GetTimestamp + GetMilliSeconds self.m_pingTimeout
          ≤ GetMilliSeconds now))
        = decide (GetMilliSeconds e.2.m_timestamp + GetMilliSeconds self.m_pingTimeout
            > GetMilliSeconds now) := by
    intro e
    show (!decide (GetMilliSeconds e.2.m_timestamp + GetMilliSeconds self.m_pingTimeout
          ≤ GetMilliSeconds now)) = _
    by_cases h : GetMilliSeconds e.2.m_timestamp + GetMilliSeconds self.m_pingTimeout
        ≤ GetMilliSeconds now
    · have h2 : ¬ (GetMilliSeconds e.2.m_timestamp + GetMilliSeconds self.m_pingTimeout
          > GetMilliSeconds now) := by omega
      simp [h, h2]
    · have h2 : GetMilliSeconds e.2.m_timestamp + GetMilliSeconds self.m_pingTimeout
          > GetMilliSeconds now := by omega
      simp [h, h2]
  have hfilter : (AuditPings self now).1.m_pingTracker
        = self.m_pingTracker.filter
            (fun e => decide (GetMilliSeconds e.2.m_timestamp
              + GetMilliSeconds self.m_pingTimeout > GetMilliSeconds now)) := by
    rw [AuditPings_tracker]
    exact List.filter_congr (fun e _ => hpred e)
  refine ⟨hfilter, ?_⟩
  intro e he hold
  have hp : decide (GetMilliSeconds e.2.m_timestamp + GetMilliSeconds self.m_pingTimeout
      > GetMilliSeconds now) = false := by
    rw [decide_eq_false_iff_not]
    exact ms_deadline_passed now e.2.m_timestamp self.m_pingTimeout hold
  rw [hfilter]
  refine ⟨?_, ?_⟩
  · intro hmem
    have := (List.mem_filter.mp hmem).2
    rw [hp] at this
    cases this
  · intro hwf
    exact StdMap.find_filter_none_of_WF _ _ e hwf he hp

/-- C7, witness: the probe issued at 0 with the default timeout of 2000 ms is
gone from the tracker after a probe audit at 2 s. -/
theorem AuditPings_timeout_witness :
    ((1, staleProbe) ∉ (AuditPings nodeAStale (Seconds 2)).1.m_pingTracker)
      ∧ StdMap.find (AuditPings nodeAStale (Seconds 2)).1.m_pingTracker 1 = none :=
  ⟨((AuditPings_timeout nodeAStale (Seconds 2)).2 (1, staleProbe) (by decide) (by decide)).1,
    ((AuditPings_timeout nodeAStale (Seconds 2)).2 (1, staleProbe) (by decide) (by decide)).2
      (by decide)⟩

/-! ## Start-up (C8) -/

/-- The start-up never touches the timer of the probe audit. -/
theorem DoInitialize_auditPingsTimer (self : LSRoutingProtocol) (now : Time)
    (interfaces : List Ipv4InterfaceAddress) (r : LSRoutingProtocol × List Effect)
    (h : DoInitialize self now interfaces = some r) :
    r.1.m_auditPingsTimer = self.m_auditPingsTimer := by
  simp only [DoInitialize] at h
  split_ifs at h <;> (cases h; rfl)

/-- The neighbor audit changes neither the ping tracker nor the timer of the
probe audit. -/
theorem AuditNeighbors_frame (self : LSRoutingProtocol) (now : Time) :
    (AuditNeighbors self now).1.m_pingTracker = self.m_pingTracker
      ∧ (AuditNeighbors self now).1.m_auditPingsTimer = self.m_auditPingsTimer :=
  ⟨rfl, rfl⟩

/-- C8, failing input: node 1 with the loopback and the interface 10.0.0.1 is
started at time 0.  `DoInitialize` returns with the timer of the neighbor audit
scheduled for 5 s and the timer of the probe audit not scheduled: `AuditPings`
is never started.  A probe issued at 1 s and never answered is still in the
tracker after the neighbor audits at 5 s and 10 s, long after the 2000 ms
timeout, and the probe audit is still not scheduled. -/
theorem DoInitialize_never_starts_AuditPings :
    (DoInitialize bootNodeA 0 interfacesA).map
        (fun r => (r.1.m_auditNeighborsTimer, r.1.m_auditPingsTimer))
        = some (⟨some (Seconds 5)⟩, ⟨none⟩)
      ∧ (DoInitialize bootNodeA 0 interfacesA).map
          (fun r => (r.1.m_auditNeighborsTimer.IsRunning, r.1.m_auditPingsTimer.IsRunning))
          = some (true, false)
      ∧ startThenUnansweredPing.map (fun s => s.m_pingTracker)
          = some [(2, ⟨2, Seconds 1, addrB, "hello"⟩)]
      ∧ startThenUnansweredPing.map (fun s => s.m_auditPingsTimer.IsRunning) = some false
      ∧ (AuditPings nodeA (Seconds 2)).1.m_auditPingsTimer.IsRunning = true := by
  refine ⟨by decide, by decide, by decide, by decide, by decide⟩

/-! ## Recording discovery responses (C9, C10) -/

theorem ReverseLookup_known (self : LSRoutingProtocol) (a : Ipv4Address) (n : Nat)
    (h : StdMap.find self.m_addressNodeMap a = some n) (hn : n < 2 ^ 32) :
    (extractUInt32 (ReverseLookup self a)).getD 0 = n := by
  simp only [ReverseLookup, h]
  rw [extractUInt32_formatUInt32 n hn]
  rfl

theorem ProcessHelloRsp_not_own (self : LSRoutingProtocol) (now : Time) (lsMessage : LSMessage)
    (interfaceAd : Ipv4Address)
    (hown : IsOwnAddress self lsMessage.GetHelloRsp.destinationAddress = false) :
    ProcessHelloRsp self now lsMessage interfaceAd = (self, []) := by
  simp [ProcessHelloRsp, hown]

/-- A HELLO_RSP addressed to this node changes nothing but the neighbor table,
and the table becomes the insertion or the assignment of the new entry under
the number extracted from the reverse lookup. -/
theorem ProcessHelloRsp_own (self : LSRoutingProtocol) (now : Time) (lsMessage : LSMessage)
    (interfaceAd : Ipv4Address)
    (hown : IsOwnAddress self lsMessage.GetHelloRsp.destinationAddress = true) :
    ProcessHelloRsp self now lsMessage interfaceAd
      = ({ self with
            m_neighbors :=
              match StdMap.find self.m_neighbors
                  ((extractUInt32 (ReverseLookup self lsMessage.GetOriginatorAddress)).getD 0) with
              | none =>
                StdMap.insert self.m_neighbors
                  ((extractUInt32 (ReverseLookup self lsMessage.GetOriginatorAddress)).getD 0)
                  ⟨lsMessage.GetOriginatorAddress, interfaceAd, now⟩
              | some _ =>
                StdMap.assign self.m_neighbors
                  ((extractUInt32 (ReverseLookup self lsMessage.GetOriginatorAddress)).getD 0)
                  ⟨lsMessage.GetOriginatorAddress, interfaceAd, now⟩ }, []) := by
  simp only [ProcessHelloRsp, hown, if_true]
  cases StdMap.find self.m_neighbors
    ((extractUInt32 (ReverseLookup self lsMessage.GetOriginatorAddress)).getD 0) <;> rfl

/-- One HELLO_RSP addressed to this node from an originator that reverse-resolves
to node number `n`: what the neighbor table holds afterwards. -/
theorem ProcessHelloRsp_record (self : LSRoutingProtocol) (now : Time) (lsMessage : LSMessage)
    (interfaceAd : Ipv4Address) (n : Nat)
    (hown : IsOwnAddress self lsMessage.GetHelloRsp.destinationAddress = true)
    (hrev : StdMap.find self.m_addressNodeMap lsMessage.GetOriginatorAddress = some n)
    (hn : n < 2 ^ 32) :
    StdMap.find (ProcessHelloRsp self now lsMessage interfaceAd).1.m_neighbors n
        = some ⟨lsMessage.GetOriginatorAddress, interfaceAd, now⟩
      ∧ (∀ k, k ≠ n →
          StdMap.find (ProcessHelloRsp self now lsMessage interfaceAd).1.m_neighbors k
            = StdMap.find self.m_neighbors k)
      ∧ (StdMap.WF self.m_neighbors →
          StdMap.WF (ProcessHelloRsp self now lsMessage interfaceAd).1.m_neighbors
            ∧ StdMap.count (ProcessHelloRsp self now lsMessage interfaceAd).1.m_neighbors n = 1)
      ∧ (ProcessHelloRsp self now lsMessage interfaceAd).1.m_socketAddresses
          = self.m_socketAddresses
      ∧ (ProcessHelloRsp self now lsMessage interfaceAd).1.m_addressNodeMap
          = self.m_addressNodeMap := by
  rw [ProcessHelloRsp_own self now lsMessage interfaceAd hown,
    ReverseLookup_known self _ n hrev hn]
  cases hf : StdMap.find self.m_neighbors n with
  | none =>
    refine ⟨StdMap.find_insert_self _ _ _ hf, fun k hk => StdMap.find_insert_ne _ _ _ _ hk,
      fun hwf => ⟨StdMap.WF_insert _ _ _ hwf, StdMap.count_insert_self _ _ _ hf⟩, rfl, rfl⟩
  | some e =>
    have hsome : (StdMap.find self.m_neighbors n).isSome = true := by simp [hf]
    refine ⟨StdMap.find_assign_self _ _ _ hsome, fun k hk => StdMap.find_assign_ne _ _ _ _ hk,
      fun hwf => ⟨StdMap.WF_assign _ _ _ hwf, ?_⟩, rfl, rfl⟩
    show StdMap.count (StdMap.assign self.m_neighbors n _) n = 1
    rw [StdMap.count_assign]
    have h1 := StdMap.count_le_one_of_WF _ n hwf
    have h2 := StdMap.count_pos_of_find_some _ n hsome
    omega

/-! ## Self-originated messages are handled like any other (C1) -/

/-- C9: a non-empty sequence of HELLO_RSP messages addressed to this node whose
originators all reverse-resolve to the same node number `n`, processed in order
on a well-formed neighbor table, leaves exactly one entry under `n`; it holds
the originator, the arrival interface and the time of the last message, and
what is stored under every other node number is unchanged. -/
theorem ProcessHelloRspSeq_idempotent (n : Nat) (hn : n < 2 ^ 32)
    (arrivals : List (Time × LSMessage × Ipv4Address)) (hne : arrivals ≠ []) :
    ∀ self : LSRoutingProtocol, StdMap.WF self.m_neighbors →
      (∀ x ∈ arrivals,
        IsOwnAddress self x.2.1.GetHelloRsp.destinationAddress = true
          ∧ StdMap.find self.m_addressNodeMap x.2.1.GetOriginatorAddress = some n) →
      StdMap.count (ProcessHelloRspSeq self arrivals).m_neighbors n = 1
        ∧ StdMap.find (ProcessHelloRspSeq self arrivals).m_neighbors n
            = some ⟨(arrivals.getLast hne).2.1.GetOriginatorAddress,
                (arrivals.getLast hne).2.2, (arrivals.getLast hne).1⟩
        ∧ ∀ k, k ≠ n →
            StdMap.find (ProcessHelloRspSeq self arrivals).m_neighbors k
              = StdMap.find self.m_neighbors k := by
  induction arrivals with
  | nil => exact absurd rfl hne
  | cons x rest ih =>
    intro self hwf hall
    obtain ⟨now, lsMessage, interfaceAd⟩ := x
    obtain ⟨hown, hrev⟩ := hall _ (List.mem_cons_self _ _)
    obtain ⟨hfind, hother, hwf1, hsock, hmap⟩ :=
      ProcessHelloRsp_record self now lsMessage interfaceAd n hown hrev hn
    cases rest with
    | nil =>
      exact ⟨(hwf1 hwf).2, hfind, hother⟩
    | cons y rest1 =>
      have hall1 : ∀ z ∈ y :: rest1,
          IsOwnAddress (ProcessHelloRsp self now lsMessage interfaceAd).1
              z.2.1.GetHelloRsp.destinationAddress = true
            ∧ StdMap.find (ProcessHelloRsp self now lsMessage interfaceAd).1.m_addressNodeMap
                z.2.1.GetOriginatorAddress = some n := by
        intro z hz
        have := hall z (List.mem_cons_of_mem _ hz)
        rw [IsOwnAddress_congr _ self _ hsock, hmap]
        exact this
      obtain ⟨hc, hf, ho⟩ := ih (List.cons_ne_nil _ _) _ (hwf1 hwf).1 hall1
      refine ⟨hc, ?_, ?_⟩
      · rw [List.getLast_cons (List.cons_ne_nil y rest1)]
        exact hf
      · intro k hk
        exact (ho k hk).trans (hother k hk)

/-- C9, witness: two HELLO_RSP from node 2, at 1 s and at 6 s, leave one entry
under node number 2, stamped 6 s. -/
theorem ProcessHelloRspSeq_idempotent_witness :
    StdMap.count
        (ProcessHelloRspSeq nodeA
          [(Seconds 1, helloRspFromB, addrA), (Seconds 6, helloRspFromB, addrA)]).m_neighbors 2
        = 1
      ∧ StdMap.find
          (ProcessHelloRspSeq nodeA
            [(Seconds 1, helloRspFromB, addrA), (Seconds 6, helloRspFromB, addrA)]).m_neighbors 2
          = some ⟨addrB, addrA, Seconds 6⟩ :=
  ⟨(ProcessHelloRspSeq_idempotent 2 (by decide)
      [(Seconds 1, helloRspFromB, addrA), (Seconds 6, helloRspFromB, addrA)] (by decide)
      nodeA (by decide) (by decide)).1,
    (ProcessHelloRspSeq_idempotent 2 (by decide)
      [(Seconds 1, helloRspFromB, addrA), (Seconds 6, helloRspFromB, addrA)] (by decide)
      nodeA (by decide) (by decide)).2.1⟩

/-- C10: a HELLO_RSP whose destination is an own address and whose originator
reverse-resolves to node number `n` makes the neighbor table map `n` to the
originator, the arrival interface and the current time; a HELLO_RSP whose
destination is not an own address leaves the table unchanged; in every case the
ping tracker and the sequence counter are unchanged and nothing is broadcast. -/
theorem ProcessHelloRsp_spec (self : LSRoutingProtocol) (now : Time) (lsMessage : LSMessage)
    (interfaceAd : Ipv4Address) :
    (∀ n, IsOwnAddress self lsMessage.GetHelloRsp.destinationAddress = true →
        StdMap.find self.m_addressNodeMap lsMessage.GetOriginatorAddress = some n →
        n < 2 ^ 32 →
        StdMap.find (ProcessHelloRsp self now lsMessage interfaceAd).1.m_neighbors n
          = some { neighborAddr := lsMessage.GetOriginatorAddress
                   interfaceAddr := interfaceAd
                   t_stamp := now })
      ∧ (IsOwnAddress self lsMessage.GetHelloRsp.destinationAddress = false →
          (ProcessHelloRsp self now lsMessage interfaceAd).1.m_neighbors = self.m_neighbors)
      ∧ (ProcessHelloRsp self now lsMessage interfaceAd).1.m_pingTracker = self.m_pingTracker
      ∧ (ProcessHelloRsp self now lsMessage interfaceAd).1.m_currentSequenceNumber
          = self.m_currentSequenceNumber
      ∧ (ProcessHelloRsp self now lsMessage interfaceAd).2 = [] := by
  refine ⟨?_, ?_, ?_, ?_, ?_⟩
  · intro n hown hrev hn
    exact (ProcessHelloRsp_record self now lsMessage interfaceAd n hown hrev hn).1
  · intro hown
    rw [ProcessHelloRsp_not_own self now lsMessage interfaceAd hown]
  all_goals
    by_cases hown : IsOwnAddress self lsMessage.GetHelloRsp.destinationAddress = true
    · rw [ProcessHelloRsp_own self now lsMessage interfaceAd hown]
    · rw [ProcessHelloRsp_not_own self now lsMessage interfaceAd (by simpa using hown)]

/-- C10, witness: the HELLO_RSP of node 2 that arrives at node 1 at 7 s on the
interface 10.0.0.1 is recorded under node number 2. -/
theorem ProcessHelloRsp_spec_witness :
    StdMap.find (ProcessHelloRsp nodeA (Seconds 7) helloRspFromB addrA).1.m_neighbors 2
      = some ⟨addrB, addrA, Seconds 7⟩ :=
  (ProcessHelloRsp_spec nodeA (Seconds 7) helloRspFromB addrA).1 2 (by decide) (by decide)
    (by decide)

/-! ## Replies to requests (C11, C12, C13) -/

/-- C11: for every state and every HELLO_REQ (its destination is not read),
`ProcessHelloReq` hands exactly one packet to `BroadcastPacket`: a HELLO_RSP
whose destination is the originator of the request, whose TTL is 1 whatever
`m_maxTTL` is, whose text is "HELLO_REPLY", whose sequence number is that of
the request and whose originator is the main address. -/
theorem ProcessHelloReq_reply (self : LSRoutingProtocol) (lsMessage : LSMessage)
    (hseq : lsMessage.GetSequenceNumber < 2 ^ 32) :
    ∃ helloRsp,
      (ProcessHelloReq self lsMessage).2 = [Effect.Broadcast helloRsp]
        ∧ helloRsp.GetMessageType = HELLO_RSP
        ∧ helloRsp.GetHelloRsp.destinationAddress = lsMessage.GetOriginatorAddress
        ∧ helloRsp.GetTTL = 1
        ∧ helloRsp.GetHelloRsp.helloMessage = "HELLO_REPLY"
        ∧ helloRsp.GetSequenceNumber = lsMessage.GetSequenceNumber
        ∧ helloRsp.GetOriginatorAddress = self.m_mainAddress := by
  refine ⟨_, rfl, rfl, rfl, rfl, rfl, ?_, rfl⟩
  exact Nat.mod_eq_of_lt hseq

/-- C11, witness: node 1, configured with TTL 16, answers the HELLO_REQ of node
2 with one HELLO_RSP addressed to node 2 with TTL 1 and sequence number 9. -/
theorem ProcessHelloReq_reply_witness :
    ∃ helloRsp,
      (ProcessHelloReq nodeA helloReqFromB).2 = [Effect.Broadcast helloRsp]
        ∧ helloRsp.GetMessageType = HELLO_RSP
        ∧ helloRsp.GetHelloRsp.destinationAddress = addrB
        ∧ helloRsp.GetTTL = 1
        ∧ helloRsp.GetHelloRsp.helloMessage = "HELLO_REPLY"
        ∧ helloRsp.GetSequenceNumber = 9
        ∧ helloRsp.GetOriginatorAddress = addrA :=
  ProcessHelloReq_reply nodeA helloReqFromB (by decide)

/-- C12: a PING_REQ whose destination is an own address makes `ProcessPingReq`
hand exactly one packet to `BroadcastPacket`: a PING_RSP with the sequence
number and the text of the request, addressed to the originator of the request,
with the main address as originator; a PING_REQ whose destination is not an own
address causes no broadcast. -/
theorem ProcessPingReq_reply (self : LSRoutingProtocol) (lsMessage : LSMessage)
    (hseq : lsMessage.GetSequenceNumber < 2 ^ 32) :
    (IsOwnAddress self lsMessage.GetPingReq.destinationAddress = true →
        ∃ lsResp,
          (ProcessPingReq self lsMessage).2 = [Effect.Broadcast lsResp]
            ∧ lsResp.GetMessageType = PING_RSP
            ∧ lsResp.GetSequenceNumber = lsMessage.GetSequenceNumber
            ∧ lsResp.GetPingRsp.pingMessage = lsMessage.GetPingReq.pingMessage
            ∧ lsResp.GetPingRsp.destinationAddress = lsMessage.GetOriginatorAddress
            ∧ lsResp.GetOriginatorAddress = self.m_mainAddress)
      ∧ (IsOwnAddress self lsMessage.GetPingReq.destinationAddress = false →
          (ProcessPingReq self lsMessage).2 = []) := by
  refine ⟨?_, ?_⟩
  · intro hown
    refine ⟨(LSMessage.new PING_RSP lsMessage.GetSequenceNumber self.m_maxTTL
        self.m_mainAddress).SetPingRsp lsMessage.GetOriginatorAddress
        lsMessage.GetPingReq.pingMessage, ?_, rfl, ?_, rfl, rfl, rfl⟩
    · simp only [ProcessPingReq, hown, if_true]
    · exact Nat.mod_eq_of_lt hseq
  · intro hown
    simp [ProcessPingReq, hown]

/-- C12, witness: node 1 answers the PING_REQ that node 2 addressed to it, and
stays silent on the PING_REQ addressed to node 2. -/
theorem ProcessPingReq_reply_witness :
    (∃ lsResp,
        (ProcessPingReq nodeA pingReqFromB).2 = [Effect.Broadcast lsResp]
          ∧ lsResp.GetMessageType = PING_RSP
          ∧ lsResp.GetSequenceNumber = 4
          ∧ lsResp.GetPingRsp.pingMessage = "hello"
          ∧ lsResp.GetPingRsp.destinationAddress = addrB
          ∧ lsResp.GetOriginatorAddress = addrA)
      ∧ (ProcessPingReq nodeA selfPingReqToB).2 = [] :=
  ⟨(ProcessPingReq_reply nodeA pingReqFromB (by decide)).1 (by decide),
    (ProcessPingReq_reply nodeA selfPingReqToB (by decide)).2 (by decide)⟩

/-- C13: handling a HELLO_REQ or a PING_REQ returns the object as it was; in
particular the neighbor table, the ping tracker and `m_currentSequenceNumber`
are unchanged, the reply taking its sequence number from the request. -/
theorem requests_mutate_nothing (self : LSRoutingProtocol) (lsMessage : LSMessage) :
    (ProcessHelloReq self lsMessage).1 = self
      ∧ (ProcessPingReq self lsMessage).1 = self
      ∧ (ProcessHelloReq self lsMessage).1.m_neighbors = self.m_neighbors
      ∧ (ProcessHelloReq self lsMessage).1.m_pingTracker = self.m_pingTracker
      ∧ (ProcessHelloReq self lsMessage).1.m_currentSequenceNumber
          = self.m_currentSequenceNumber
      ∧ (ProcessPingReq self lsMessage).1.m_neighbors = self.m_neighbors
      ∧ (ProcessPingReq self lsMessage).1.m_pingTracker = self.m_pingTracker
      ∧ (ProcessPingReq self lsMessage).1.m_currentSequenceNumber
          = self.m_currentSequenceNumber := by
  have h1 : (ProcessHelloReq self lsMessage).1 = self := rfl
  have h2 : (ProcessPingReq self lsMessage).1 = self := by
    unfold ProcessPingReq
    split <;> rfl
  refine ⟨h1, h2, ?_, ?_, ?_, ?_, ?_, ?_⟩
  · rw [h1]
  · rw [h1]
  · rw [h1]
  · rw [h2]
  · rw [h2]
  · rw [h2]

/-! ## Broadcasting (C18, C20) -/

theorem BroadcastPacketFrom_length (idx : Nat) (sockets : List Ipv4InterfaceAddress)
    (packet : LSMessage) : (BroadcastPacketFrom idx sockets packet).length = sockets.length := by
  induction sockets generalizing idx with
  | nil => rfl
  | cons i rest ih => simp [BroadcastPacketFrom, ih]

theorem BroadcastPacketFrom_get? (sockets : List Ipv4InterfaceAddress) (packet : LSMessage) :
    ∀ (idx k : Nat),
      (BroadcastPacketFrom idx sockets packet)[k]?
        = (sockets[k]?).map fun i =>
            ({ socket := idx + k
               packet := packet
               address := i.GetLocal ||| (i.GetMask ^^^ 0xFFFFFFFF)
               port := 698 } : Send) := by
  induction sockets with
  | nil => intro idx k; rfl
  | cons i rest ih =>
    intro idx k
    cases k with
    | zero =>
      simp [BroadcastPacketFrom, GetSubnetDirectedBroadcast, LS_PORT_NUMBER]
    | succ k =>
      simp only [BroadcastPacketFrom, List.getElem?_cons_succ]
      rw [ih (idx + 1) k]
      have : idx + 1 + k = idx + (k + 1) := by omega
      rw [this]

/-- C18: `BroadcastPacket` performs exactly one send per element of
`m_socketAddresses`, in order: as many sends as there are interface sockets (none
when there is none), the send on the k-th socket carrying the packet to the
local address of that socket OR-ed with the complement of its mask, on port
698. -/
theorem BroadcastPacket_spec (self : LSRoutingProtocol) (packet : LSMessage) :
    (BroadcastPacket self packet).length = self.m_socketAddresses.length
      ∧ (self.m_socketAddresses = [] → BroadcastPacket self packet = [])
      ∧ ∀ k : Nat, (BroadcastPacket self packet)[k]?
          = (self.m_socketAddresses[k]?).map fun i =>
              ({ socket := k
                 packet := packet
                 address := i.GetLocal ||| (i.GetMask ^^^ 0xFFFFFFFF)
                 port := 698 } : Send) := by
  refine ⟨BroadcastPacketFrom_length 0 _ _, ?_, ?_⟩
  · intro h
    unfold BroadcastPacket
    rw [h]
    rfl
  · intro k
    unfold BroadcastPacket
    rw [BroadcastPacketFrom_get? _ _ 0 k, Nat.zero_add]

/-- C18, witness: on the node with the interfaces 10.0.0.1/24 and
192.168.1.5/16 a packet is sent twice, to 10.0.0.255 and to 192.168.255.255,
port 698; a node without interface socket sends nothing. -/
theorem BroadcastPacket_spec_witness :
    BroadcastPacket nodeATwoInterfaces helloReqFromB
        = [⟨0, helloReqFromB, 0x0a0000ff, 698⟩, ⟨1, helloReqFromB, 0xc0a8ffff, 698⟩]
      ∧ BroadcastPacket bootNodeA helloReqFromB = [] :=
  ⟨by decide, (BroadcastPacket_spec bootNodeA helloReqFromB).2.1 (by decide)⟩

theorem GetNextSequenceNumber_eq (self : LSRoutingProtocol) :
    GetNextSequenceNumber self
      = ({ self with m_currentSequenceNumber := (self.m_currentSequenceNumber + 1) % 65536 },
          (self.m_currentSequenceNumber + 1) % 65536) := by
  have h : ((self.m_currentSequenceNumber + 1) % 2 ^ 32) % (LS_MAX_SEQUENCE_NUMBER + 1)
      = (self.m_currentSequenceNumber + 1) % 65536 := by
    show ((self.m_currentSequenceNumber + 1) % 2 ^ 32) % (0xFFFF + 1) = _
    omega
  unfold GetNextSequenceNumber
  simp only [h]

theorem GetNextSequenceNumber_lt (self : LSRoutingProtocol) :
    (GetNextSequenceNumber self).2 < 65536 := by
  rw [GetNextSequenceNumber_eq]
  exact Nat.mod_lt _ (by decide)

/-- C20: every run of `AuditNeighbors` hands exactly one packet to
`BroadcastPacket`: a HELLO_REQ with TTL 1 whatever `m_maxTTL` is, the main
address as originator, the destination 0.0.0.0, the text "HELLO" and the
sequence number that `GetNextSequenceNumber` allocates, which becomes the
counter.  The neighbor table it leaves is the pruned one, its own timer is
scheduled 5 seconds after `now`, and the ping tracker is unchanged. -/
theorem AuditNeighbors_emission (self : LSRoutingProtocol) (now : Time) :
    ∃ lsMessage,
      (AuditNeighbors self now).2 = [Effect.Broadcast lsMessage]
        ∧ lsMessage.GetMessageType = HELLO_REQ
        ∧ lsMessage.GetTTL = 1
        ∧ lsMessage.GetOriginatorAddress = self.m_mainAddress
        ∧ lsMessage.GetHelloReq.destinationAddress = Ipv4Address.GetAny
        ∧ lsMessage.GetHelloReq.helloMessage = "HELLO"
        ∧ lsMessage.GetSequenceNumber = (GetNextSequenceNumber self).2
        ∧ (AuditNeighbors self now).1.m_currentSequenceNumber = (GetNextSequenceNumber self).2
        ∧ (AuditNeighbors self now).1.m_auditNeighborsTimer.m_event = some (now + Seconds 5)
        ∧ (AuditNeighbors self now).1.m_pingTracker = self.m_pingTracker
        ∧ (AuditNeighbors self now).1.m_neighbors
            = self.m_neighbors.filter
                (fun e => !decide (GetMilliSeconds e.2.t_stamp + GetMilliSeconds (Seconds 5)
                  ≤ GetMilliSeconds now)) := by
  refine ⟨_, rfl, rfl, rfl, rfl, rfl, rfl, ?_, rfl, rfl, rfl, AuditNeighbors_neighbors self now⟩
  exact Nat.mod_eq_of_lt (Nat.lt_trans (GetNextSequenceNumber_lt self) (by decide))

/-! ## The sequence counter (C14, C15) -/

theorem broadcastSequenceNumbers_append (a b : List Effect) :
    broadcastSequenceNumbers (a ++ b)
      = broadcastSequenceNumbers a ++ broadcastSequenceNumbers b := by
  induction a with
  | nil => rfl
  | cons e rest ih =>
    cases e with
    | Broadcast packet => simp [broadcastSequenceNumbers, ih]
    | Dump rows => simp [broadcastSequenceNumbers, ih]

/-- What `ProcessCommand` can do: nothing, a dump of the neighbor table, or the
issue of a probe, which happens exactly for a PING command with at least three
tokens whose node number resolves. -/
theorem ProcessCommand_cases (self : LSRoutingProtocol) (now : Time) (tokens : List String)
    (r : LSRoutingProtocol × List Effect) (h : ProcessCommand self now tokens = some r) :
    r = (self, []) ∨ r = (self, [Effect.Dump (DumpNeighbors self)])
      ∨ ∃ nodeToken pingMessage more nodeNumber,
          tokens = "PING" :: nodeToken :: pingMessage :: more
            ∧ extractUInt32 nodeToken = some nodeNumber
            ∧ ResolveNodeIpAddress self nodeNumber ≠ Ipv4Address.GetAny
            ∧ r = ({ (GetNextSequenceNumber self).1 with
                      m_pingTracker :=
                        StdMap.insert self.m_pingTracker (GetNextSequenceNumber self).2
                          ⟨(GetNextSequenceNumber self).2, now,
                            ResolveNodeIpAddress self nodeNumber, pingMessage⟩ },
                [Effect.Broadcast
                    ((LSMessage.new PING_REQ (GetNextSequenceNumber self).2 self.m_maxTTL
                      self.m_mainAddress).SetPingReq
                      (ResolveNodeIpAddress self nodeNumber) pingMessage)]) := by
  match tokens, h with
  | [], h => simp [ProcessCommand] at h
  | [command], h =>
    simp only [ProcessCommand] at h
    split_ifs at h <;> simp_all
  | [command, second], h =>
    simp only [ProcessCommand] at h
    split_ifs at h <;> simp_all
  | command :: nodeToken :: pingMessage :: more, h =>
    by_cases hc : command = "PING"
    · subst hc
      cases hread : extractUInt32 nodeToken with
      | none =>
        rw [ProcessCommand_ping_blank self now nodeToken pingMessage more hread] at h
        cases h
      | some nodeNumber =>
        by_cases hres : ResolveNodeIpAddress self nodeNumber ≠ Ipv4Address.GetAny
        · rw [ProcessCommand_ping self now nodeToken pingMessage more nodeNumber hread hres] at h
          exact Or.inr (Or.inr ⟨nodeToken, pingMessage, more, nodeNumber, rfl, hread, hres,
            (Option.some.inj h).symm⟩)
        · simp only [ProcessCommand, if_true, List.length_cons, hread] at h
          rw [if_neg (by omega), if_neg hres] at h
          exact Or.inl (Option.some.inj h).symm
    · simp only [ProcessCommand, if_neg hc] at h
      split_ifs at h <;> simp_all

theorem ResolveNodeIpAddress_congr (s1 s2 : LSRoutingProtocol) (nodeNumber : Nat)
    (h : s1.m_nodeAddressMap = s2.m_nodeAddressMap) :
    ResolveNodeIpAddress s1 nodeNumber = ResolveNodeIpAddress s2 nodeNumber := by
  unfold ResolveNodeIpAddress
  rw [h]

theorem IsResolvablePing_congr (s1 s2 : LSRoutingProtocol) (tokens : List String)
    (h : s1.m_nodeAddressMap = s2.m_nodeAddressMap) (hp : IsResolvablePing s2 tokens) :
    IsResolvablePing s1 tokens := by
  obtain ⟨nodeToken, pingMessage, more, nodeNumber, ht, hread, hres⟩ := hp
  exact ⟨nodeToken, pingMessage, more, nodeNumber, ht, hread,
    by rw [ResolveNodeIpAddress_congr s1 s2 _ h]; exact hres⟩

theorem mod_step (c i : Nat) : ((c + 1) % 65536 + i + 1) % 65536 = (c + (i + 1) + 1) % 65536 := by
  omega

theorem mod_count (c k : Nat) : ((c + 1) % 65536 + k) % 65536 = (c + (k + 1)) % 65536 := by
  omega

/-- A run of probes: from a counter at `c`, the probes broadcast carry the
numbers `(c + 1) % 65536`, `(c + 2) % 65536`, ... in order, and the counter ends
at `(c + k) % 65536`. -/
theorem ProcessCommands_probe_numbers (commands : List (Time × List String)) :
    ∀ self : LSRoutingProtocol, self.m_currentSequenceNumber < 65536 →
      (∀ command ∈ commands, IsResolvablePing self command.2) →
      ∃ self1 effects,
        ProcessCommands self commands = some (self1, effects)
          ∧ broadcastSequenceNumbers effects
              = (List.range commands.length).map
                  (fun i => (self.m_currentSequenceNumber + i + 1) % 65536)
          ∧ self1.m_currentSequenceNumber
              = (self.m_currentSequenceNumber + commands.length) % 65536 := by
  induction commands with
  | nil =>
    intro self hc _
    exact ⟨self, [], rfl, rfl, (Nat.mod_eq_of_lt hc).symm⟩
  | cons command rest ih =>
    intro self _ hall
    obtain ⟨now, tokens⟩ := command
    obtain ⟨nodeToken, pingMessage, more, nodeNumber, ht, hread, hres⟩ :=
      hall (now, tokens) (List.mem_cons_self _ _)
    have ht1 : tokens = "PING" :: nodeToken :: pingMessage :: more := ht
    subst ht1
    have hstep := ProcessCommand_ping self now nodeToken pingMessage more nodeNumber hread hres
    have hnext := GetNextSequenceNumber_eq self
    generalize hs1 : ({ (GetNextSequenceNumber self).1 with
        m_pingTracker :=
          StdMap.insert self.m_pingTracker (GetNextSequenceNumber self).2
            ⟨(GetNextSequenceNumber self).2, now,
              ResolveNodeIpAddress self nodeNumber, pingMessage⟩ }
        : LSRoutingProtocol) = s1 at hstep
    have hcount : s1.m_currentSequenceNumber = (self.m_currentSequenceNumber + 1) % 65536 := by
      rw [← hs1]
      show (GetNextSequenceNumber self).1.m_currentSequenceNumber = _
      rw [hnext]
    have hmap : s1.m_nodeAddressMap = self.m_nodeAddressMap := by
      rw [← hs1]; rfl
    have hall1 : ∀ command ∈ rest, IsResolvablePing s1 command.2 := fun command hmem =>
      IsResolvablePing_congr s1 self _ hmap (hall command (List.mem_cons_of_mem _ hmem))
    have hlt1 : s1.m_currentSequenceNumber < 65536 := by
      rw [hcount]; exact Nat.mod_lt _ (by decide)
    obtain ⟨s2, effects2, hrun, hnums, hend⟩ := ih s1 hlt1 hall1
    have hseq : ((LSMessage.new PING_REQ (GetNextSequenceNumber self).2 self.m_maxTTL
          self.m_mainAddress).SetPingReq
          (ResolveNodeIpAddress self nodeNumber) pingMessage).GetSequenceNumber
        = (self.m_currentSequenceNumber + 0 + 1) % 65536 := by
      show (GetNextSequenceNumber self).2 % 2 ^ 32 = _
      rw [hnext]
      show (self.m_currentSequenceNumber + 1) % 65536 % 2 ^ 32 = _
      omega
    generalize ((LSMessage.new PING_REQ (GetNextSequenceNumber self).2 self.m_maxTTL
          self.m_mainAddress).SetPingReq
          (ResolveNodeIpAddress self nodeNumber) pingMessage) = packet
      at hstep hseq
    refine ⟨s2, Effect.Broadcast packet :: effects2, ?_, ?_, ?_⟩
    · simp only [ProcessCommands, hstep, hrun, List.singleton_append]
    · rw [List.length_cons, List.range_succ_eq_map, List.map_cons, List.map_map]
      simp only [broadcastSequenceNumbers, hseq, hnums]
      congr 1
      apply List.map_congr_left
      intro i _
      simp only [Function.comp, hcount]
      exact mod_step _ _
    · rw [hend, hcount, List.length_cons]
      exact mod_count _ _

/-- C14: from an object whose counter is 0, as the constructor leaves it,
65537 probes issued one after the other with no other allocation in between get
the sequence numbers 1 (the first), 65535 (the 65535th), 0 (the 65536th) and 1
again (the 65537th).  A probe is issued by a PING command with at least three
tokens whose node token reads as a number that the directory resolves. -/
theorem probe_sequence_wraparound (self : LSRoutingProtocol)
    (commands : List (Time × List String))
    (hfresh : self.m_currentSequenceNumber = 0)
    (hlen : commands.length = 65537)
    (hall : ∀ command ∈ commands, IsResolvablePing self command.2) :
    ∃ self1 effects,
      ProcessCommands self commands = some (self1, effects)
        ∧ (broadcastSequenceNumbers effects).length = 65537
        ∧ (broadcastSequenceNumbers effects)[0]? = some 1
        ∧ (broadcastSequenceNumbers effects)[65534]? = some 65535
        ∧ (broadcastSequenceNumbers effects)[65535]? = some 0
        ∧ (broadcastSequenceNumbers effects)[65536]? = some 1 := by
  obtain ⟨self1, effects, hrun, hnums, -⟩ :=
    ProcessCommands_probe_numbers commands self (by omega) hall
  refine ⟨self1, effects, hrun, ?_, ?_, ?_, ?_, ?_⟩ <;>
    simp [hnums, hlen, hfresh]

/-- C14, witness: node 1, whose counter is 0, handles the command PING 2 hello
65537 times. -/
theorem probe_sequence_wraparound_witness :
    ∃ self1 effects,
      ProcessCommands nodeA (List.replicate 65537 (0, ["PING", "2", "hello"]))
          = some (self1, effects)
        ∧ (broadcastSequenceNumbers effects).length = 65537
        ∧ (broadcastSequenceNumbers effects)[0]? = some 1
        ∧ (broadcastSequenceNumbers effects)[65534]? = some 65535
        ∧ (broadcastSequenceNumbers effects)[65535]? = some 0
        ∧ (broadcastSequenceNumbers effects)[65536]? = some 1 :=
  probe_sequence_wraparound nodeA (List.replicate 65537 (0, ["PING", "2", "hello"])) rfl
    (List.length_replicate _ _)
    (fun command hmem => by
      rw [List.eq_of_mem_replicate hmem]
      exact ⟨"2", "hello", [], 2, rfl, by decide, by decide⟩)

theorem ProcessPingReq_counter (self : LSRoutingProtocol) (lsMessage : LSMessage) :
    (ProcessPingReq self lsMessage).1.m_currentSequenceNumber = self.m_currentSequenceNumber := by
  unfold ProcessPingReq
  split <;> rfl

theorem ProcessPingRsp_counter (self : LSRoutingProtocol) (lsMessage : LSMessage) :
    (ProcessPingRsp self lsMessage).1.m_currentSequenceNumber = self.m_currentSequenceNumber := by
  unfold ProcessPingRsp
  split
  · split <;> rfl
  · rfl

theorem ProcessHelloRsp_counter (self : LSRoutingProtocol) (now : Time) (lsMessage : LSMessage)
    (interfaceAd : Ipv4Address) :
    (ProcessHelloRsp self now lsMessage interfaceAd).1.m_currentSequenceNumber
      = self.m_currentSequenceNumber := by
  by_cases hown : IsOwnAddress self lsMessage.GetHelloRsp.destinationAddress = true
  · rw [ProcessHelloRsp_own self now lsMessage interfaceAd hown]
  · rw [ProcessHelloRsp_not_own self now lsMessage interfaceAd (by simpa using hown)]

theorem RecvLSMessage_counter (self : LSRoutingProtocol) (now : Time) (packet : Packet)
    (r : LSRoutingProtocol × List Effect) (h : RecvLSMessage self now packet = some r) :
    r.1.m_currentSequenceNumber = self.m_currentSequenceNumber := by
  unfold RecvLSMessage at h
  split at h
  · cases h
  · split at h
    · cases h
    · rename_i lsMessage _
      simp only at h
      split at h <;> cases h
      · exact ProcessPingReq_counter self lsMessage
      · exact ProcessPingRsp_counter self lsMessage
      · rfl
      · exact ProcessHelloRsp_counter self now lsMessage _
      · rfl

theorem AuditNeighbors_counter (self : LSRoutingProtocol) (now : Time) :
    (AuditNeighbors self now).1.m_currentSequenceNumber
      = (self.m_currentSequenceNumber + 1) % 65536 := by
  show (GetNextSequenceNumber _).1.m_currentSequenceNumber = _
  rw [GetNextSequenceNumber_eq]

theorem DoInitialize_counter (self : LSRoutingProtocol) (now : Time)
    (interfaces : List Ipv4InterfaceAddress) (r : LSRoutingProtocol × List Effect)
    (h : DoInitialize self now interfaces = some r) :
    r.1.m_currentSequenceNumber = self.m_currentSequenceNumber
      ∨ r.1.m_currentSequenceNumber = (self.m_currentSequenceNumber + 1) % 65536 := by
  simp only [DoInitialize] at h
  split_ifs at h <;> cases h
  all_goals first
    | exact Or.inl rfl
    | exact Or.inr (AuditNeighbors_counter _ now)

theorem ProcessCommand_counter (self : LSRoutingProtocol) (now : Time) (tokens : List String)
    (r : LSRoutingProtocol × List Effect) (h : ProcessCommand self now tokens = some r) :
    r.1.m_currentSequenceNumber = self.m_currentSequenceNumber
      ∨ r.1.m_currentSequenceNumber = (self.m_currentSequenceNumber + 1) % 65536 := by
  rcases ProcessCommand_cases self now tokens r h with h1 | h1 | ⟨_, _, _, _, _, _, _, h1⟩
  · rw [h1]; exact Or.inl rfl
  · rw [h1]; exact Or.inl rfl
  · rw [h1]
    refine Or.inr ?_
    show (GetNextSequenceNumber self).1.m_currentSequenceNumber = _
    rw [GetNextSequenceNumber_eq]

/-- One event leaves the counter as it was or steps it by one modulo 65536. -/
theorem Event.apply_counter (self self1 : LSRoutingProtocol) (event : Event)
    (h : Event.apply self event = some self1) :
    self1.m_currentSequenceNumber = self.m_currentSequenceNumber
      ∨ self1.m_currentSequenceNumber = (self.m_currentSequenceNumber + 1) % 65536 := by
  cases event with
  | SetNodeAddressMap m => cases h; exact Or.inl rfl
  | SetAddressNodeMap m => cases h; exact Or.inl rfl
  | SetMainInterface a => cases h; exact Or.inl rfl
  | SetPingTimeout t => cases h; exact Or.inl rfl
  | SetMaxTTL t => cases h; exact Or.inl rfl
  | SetLSPort t => cases h; exact Or.inl rfl
  | DoInitialize now interfaces =>
    simp only [Event.apply, Option.map_eq_some'] at h
    obtain ⟨r, hr, rfl⟩ := h
    exact DoInitialize_counter self now interfaces r hr
  | ProcessCommand now tokens =>
    simp only [Event.apply, Option.map_eq_some'] at h
    obtain ⟨r, hr, rfl⟩ := h
    exact ProcessCommand_counter self now tokens r hr
  | RecvLSMessage now packet =>
    simp only [Event.apply, Option.map_eq_some'] at h
    obtain ⟨r, hr, rfl⟩ := h
    exact Or.inl (RecvLSMessage_counter self now packet r hr)
  | AuditNeighbors now => cases h; exact Or.inr (AuditNeighbors_counter self now)
  | AuditPings now => cases h; exact Or.inl rfl
  | DoDispose => cases h; exact Or.inl rfl

theorem Reachable.counter_le (self : LSRoutingProtocol) (h : Reachable self) :
    self.m_currentSequenceNumber ≤ 65535 := by
  induction h with
  | construct => decide
  | step s s1 event _ happly ih =>
    rcases Event.apply_counter s s1 event happly with h1 | h1
    · rw [h1]; exact ih
    · rw [h1]
      have := Nat.mod_lt (s.m_currentSequenceNumber + 1) (show 65536 > 0 by decide)
      omega

/-- C15: in every state reachable from construction `m_currentSequenceNumber`
is at most 65535; every call of `GetNextSequenceNumber` returns the previous
value plus one modulo 65536 and stores it; and the sequence number of every
packet that `ProcessCommand` broadcasts (a PING_REQ) and of the packet that
`BroadcastHello` broadcasts (a HELLO_REQ) is the number that
`GetNextSequenceNumber` returned in that call, which is the counter
afterwards. -/
theorem sequence_counter_invariant :
    (∀ self, Reachable self → self.m_currentSequenceNumber ≤ 65535)
      ∧ (∀ self : LSRoutingProtocol,
          (GetNextSequenceNumber self).2 = (self.m_currentSequenceNumber + 1) % 65536
            ∧ (GetNextSequenceNumber self).1
                = { self with
                    m_currentSequenceNumber := (self.m_currentSequenceNumber + 1) % 65536 })
      ∧ (∀ (self : LSRoutingProtocol) (now : Time) (tokens : List String)
            (self1 : LSRoutingProtocol) (effects : List Effect),
          ProcessCommand self now tokens = some (self1, effects) →
          ∀ packet, Effect.Broadcast packet ∈ effects →
            packet.GetMessageType = PING_REQ
              ∧ packet.GetSequenceNumber = (GetNextSequenceNumber self).2
              ∧ self1.m_currentSequenceNumber = (GetNextSequenceNumber self).2)
      ∧ (∀ self : LSRoutingProtocol,
          ∃ packet,
            (BroadcastHello self).2 = [Effect.Broadcast packet]
              ∧ packet.GetMessageType = HELLO_REQ
              ∧ packet.GetSequenceNumber = (GetNextSequenceNumber self).2
              ∧ (BroadcastHello self).1.m_currentSequenceNumber
                  = (GetNextSequenceNumber self).2) := by
  have hmod : ∀ self : LSRoutingProtocol,
      (GetNextSequenceNumber self).2 % 2 ^ 32 = (GetNextSequenceNumber self).2 := fun self =>
    Nat.mod_eq_of_lt (Nat.lt_trans (GetNextSequenceNumber_lt self) (by decide))
  refine ⟨Reachable.counter_le, ?_, ?_, ?_⟩
  · intro self
    rw [GetNextSequenceNumber_eq]
    exact ⟨rfl, rfl⟩
  · intro self now tokens self1 effects h packet hmem
    rcases ProcessCommand_cases self now tokens _ h with
      h1 | h1 | ⟨nodeToken, pingMessage, _, nodeNumber, _, _, _, h1⟩
    · rw [(Prod.mk.inj h1).2] at hmem
      cases hmem
    · rw [(Prod.mk.inj h1).2] at hmem
      simp at hmem
    · rw [(Prod.mk.inj h1).2] at hmem
      rw [(Prod.mk.inj h1).1]
      have hp : packet = (LSMessage.new PING_REQ (GetNextSequenceNumber self).2 self.m_maxTTL
          self.m_mainAddress).SetPingReq
          (ResolveNodeIpAddress self nodeNumber) pingMessage := by
        simpa using hmem
      rw [hp]
      exact ⟨rfl, hmod self, rfl⟩
  · intro self
    exact ⟨_, rfl, rfl, hmod self, rfl⟩

/-- C15, witness: node 1 after its start-up is a reachable state, and the probe
it then issues carries the number of the counter. -/
theorem sequence_counter_invariant_witness :
    (∀ self1, Event.apply LSRoutingProtocol.new (Event.DoInitialize 0 interfacesA) = some self1 →
        self1.m_currentSequenceNumber ≤ 65535)
      ∧ (∀ packet,
          Effect.Broadcast packet
              ∈ [Effect.Broadcast ((LSMessage.new PING_REQ 1 16 addrA).SetPingReq addrB "hello")] →
          packet.GetSequenceNumber = 1) :=
  ⟨fun self1 h =>
      sequence_counter_invariant.1 self1 (Reachable.step _ self1 _ Reachable.construct h),
    fun packet hmem =>
      (sequence_counter_invariant.2.2.1 nodeA (Seconds 7) ["PING", "2", "hello"]
        { nodeA with
          m_currentSequenceNumber := 1
          m_pingTracker := [(1, ⟨1, Seconds 7, addrB, "hello"⟩)] }
        [Effect.Broadcast ((LSMessage.new PING_REQ 1 16 addrA).SetPingReq addrB "hello")]
        (by decide) packet hmem).2.1⟩

/-! ## Packets that do not decode (C16) -/

/-- C16, counterexample: on node 1 a packet without the incoming-interface tag
and a packet whose bytes do not deserialise (`RemoveHeader` reports 0) both end
in `NS_ABORT_MSG`: `RecvLSMessage` does not return. -/
theorem RecvLSMessage_aborts_on_undecodable :
    RecvLSMessage nodeA (Seconds 7) ⟨none, some helloReqFromB⟩ = none
      ∧ RecvLSMessage nodeA (Seconds 7) ⟨some 1, none⟩ = none
      ∧ RecvLSMessage nodeA (Seconds 7) ⟨none, none⟩ = none := by
  refine ⟨by decide, by decide, by decide⟩

/-- C16, amended: `RecvLSMessage` aborts the process exactly when the packet
lacks the incoming-interface tag or its header deserialises to 0 bytes; a packet
that has the tag and decodes is handled and the function returns, and when the
decoded message is of none of the four types it is dropped: the object is
unchanged and nothing is broadcast. -/
theorem RecvLSMessage_abort_iff (self : LSRoutingProtocol) (now : Time) (packet : Packet) :
    (RecvLSMessage self now packet = none
        ↔ packet.interfaceInfo = none ∨ packet.header = none)
      ∧ (∀ incomingIf lsMessage,
          packet = ⟨some incomingIf, some lsMessage⟩ →
          3 < lsMessage.GetMessageType →
          RecvLSMessage self now packet = some (self, [])) := by
  refine ⟨?_, ?_⟩
  · obtain ⟨tag, header⟩ := packet
    cases tag with
    | none => simp [RecvLSMessage]
    | some incomingIf =>
      cases header with
      | none => simp [RecvLSMessage]
      | some lsMessage =>
        simp only [RecvLSMessage, reduceCtorEq, or_self, iff_false]
        split <;> simp
  · intro incomingIf lsMessage hp ht
    subst hp
    simp only [RecvLSMessage]
    split
    · rename_i h; rw [h] at ht; omega
    · rename_i h; rw [h] at ht; omega
    · rename_i h; rw [h] at ht; omega
    · rename_i h; rw [h] at ht; omega
    · rfl

/-- C16, witness: a tagged packet that decodes to a message of type 7 is dropped
by node 1 without abort. -/
theorem RecvLSMessage_abort_iff_witness :
    RecvLSMessage nodeA (Seconds 7) ⟨some 1, some unknownTypeMessage⟩ = some (nodeA, []) :=
  (RecvLSMessage_abort_iff nodeA (Seconds 7) ⟨some 1, some unknownTypeMessage⟩).2 1
    unknownTypeMessage rfl (by decide)

/-! ## A probe end to end (C19) -/

/-- C19: node A, whose tracker is empty and whose main address is one of its own
addresses, handles a PING command whose node token reads as a node number that
its directory maps to an address that node B owns; B handles the PING_REQ that A
broadcast and A handles the PING_RSP that B broadcast.  Then that response is
addressed to A,
carries the sequence number of the probe and the text of the command, finds the
probe in the tracker of A, and leaves the tracker of A empty. -/
theorem ping_end_to_end (nodeA1 nodeB1 : LSRoutingProtocol) (now : Time)
    (nodeToken pingMessage : String) (more : List String) (nodeNumber : Nat)
    (hempty : nodeA1.m_pingTracker = [])
    (hmain : IsOwnAddress nodeA1 nodeA1.m_mainAddress = true)
    (hread : extractUInt32 nodeToken = some nodeNumber)
    (hres : ResolveNodeIpAddress nodeA1 nodeNumber ≠ Ipv4Address.GetAny)
    (hB : IsOwnAddress nodeB1 (ResolveNodeIpAddress nodeA1 nodeNumber) = true) :
    ∃ nodeA2 pingReq pingRsp,
      ProcessCommand nodeA1 now ("PING" :: nodeToken :: pingMessage :: more)
          = some (nodeA2, [Effect.Broadcast pingReq])
        ∧ ProcessPingReq nodeB1 pingReq = (nodeB1, [Effect.Broadcast pingRsp])
        ∧ pingRsp.GetMessageType = PING_RSP
        ∧ pingRsp.GetPingRsp.pingMessage = pingMessage
        ∧ pingRsp.GetSequenceNumber = (GetNextSequenceNumber nodeA1).2
        ∧ StdMap.find nodeA2.m_pingTracker pingRsp.GetSequenceNumber
            = some ⟨(GetNextSequenceNumber nodeA1).2, now,
                ResolveNodeIpAddress nodeA1 nodeNumber, pingMessage⟩
        ∧ (ProcessPingRsp nodeA2 pingRsp).1.m_pingTracker = []
        ∧ (ProcessPingRsp nodeA2 pingRsp).2 = [] := by
  have hlt := GetNextSequenceNumber_lt nodeA1
  have hmod : (GetNextSequenceNumber nodeA1).2 % 2 ^ 32 = (GetNextSequenceNumber nodeA1).2 :=
    Nat.mod_eq_of_lt (Nat.lt_trans hlt (by decide))
  have hfresh : StdMap.find nodeA1.m_pingTracker (GetNextSequenceNumber nodeA1).2 = none := by
    rw [hempty]; rfl
  refine ⟨_, _, (LSMessage.new PING_RSP (GetNextSequenceNumber nodeA1).2 nodeB1.m_maxTTL
      nodeB1.m_mainAddress).SetPingRsp nodeA1.m_mainAddress pingMessage,
    ProcessCommand_ping nodeA1 now nodeToken pingMessage more nodeNumber hread hres,
    ?_, rfl, rfl, ?_, ?_⟩
  · have hdest : IsOwnAddress nodeB1
        ((LSMessage.new PING_REQ (GetNextSequenceNumber nodeA1).2 nodeA1.m_maxTTL
          nodeA1.m_mainAddress).SetPingReq
          (ResolveNodeIpAddress nodeA1 nodeNumber)
          pingMessage).GetPingReq.destinationAddress = true := hB
    simp only [ProcessPingReq, hdest, if_true]
    show (nodeB1, [Effect.Broadcast ((LSMessage.new PING_RSP
      ((GetNextSequenceNumber nodeA1).2 % 2 ^ 32) nodeB1.m_maxTTL nodeB1.m_mainAddress).SetPingRsp
      nodeA1.m_mainAddress pingMessage)]) = _
    rw [hmod]
  · show (GetNextSequenceNumber nodeA1).2 % 2 ^ 32 = _
    exact hmod
  · have key : ∀ (self1 : LSRoutingProtocol) (rsp : LSMessage),
        self1.m_socketAddresses = nodeA1.m_socketAddresses →
        self1.m_pingTracker
          = StdMap.insert nodeA1.m_pingTracker (GetNextSequenceNumber nodeA1).2
              ⟨(GetNextSequenceNumber nodeA1).2, now,
                ResolveNodeIpAddress nodeA1 nodeNumber, pingMessage⟩ →
        rsp.GetSequenceNumber = (GetNextSequenceNumber nodeA1).2 →
        rsp.GetPingRsp.destinationAddress = nodeA1.m_mainAddress →
        StdMap.find self1.m_pingTracker rsp.GetSequenceNumber
            = some ⟨(GetNextSequenceNumber nodeA1).2, now,
                ResolveNodeIpAddress nodeA1 nodeNumber, pingMessage⟩
          ∧ (ProcessPingRsp self1 rsp).1.m_pingTracker = []
          ∧ (ProcessPingRsp self1 rsp).2 = [] := by
      intro self1 rsp hsock htr hseq hdst
      have hfind : StdMap.find self1.m_pingTracker rsp.GetSequenceNumber
          = some ⟨(GetNextSequenceNumber nodeA1).2, now,
              ResolveNodeIpAddress nodeA1 nodeNumber, pingMessage⟩ := by
        rw [htr, hseq]; exact StdMap.find_insert_self _ _ _ hfresh
      have hown1 : IsOwnAddress self1 rsp.GetPingRsp.destinationAddress = true := by
        rw [IsOwnAddress_congr self1 nodeA1 _ hsock, hdst]; exact hmain
      rw [ProcessPingRsp_found self1 rsp _ hown1 hfind]
      refine ⟨hfind, ?_, rfl⟩
      show StdMap.erase self1.m_pingTracker rsp.GetSequenceNumber = []
      rw [htr, hseq, StdMap.erase_insert_self _ _ _ hfresh, hempty]
    exact key _ _ rfl rfl hmod rfl

/-- C19, witness: node 1 issues PING 2 hello at 7 s, node 2 replies, and the
tracker of node 1 is empty afterwards, the response carrying "hello". -/
theorem ping_end_to_end_witness :
    ∃ nodeA2 pingReq pingRsp,
      ProcessCommand nodeA (Seconds 7) ["PING", "2", "hello"]
          = some (nodeA2, [Effect.Broadcast pingReq])
        ∧ ProcessPingReq nodeB pingReq = (nodeB, [Effect.Broadcast pingRsp])
        ∧ pingRsp.GetMessageType = PING_RSP
        ∧ pingRsp.GetPingRsp.pingMessage = "hello"
        ∧ pingRsp.GetSequenceNumber = (GetNextSequenceNumber nodeA).2
        ∧ StdMap.find nodeA2.m_pingTracker pingRsp.GetSequenceNumber
            = some ⟨(GetNextSequenceNumber nodeA).2, Seconds 7,
                ResolveNodeIpAddress nodeA 2, "hello"⟩
        ∧ (ProcessPingRsp nodeA2 pingRsp).1.m_pingTracker = []
        ∧ (ProcessPingRsp nodeA2 pingRsp).2 = [] :=
  ping_end_to_end nodeA nodeB (Seconds 7) "2" "hello" [] 2 rfl (by decide) (by decide)
    (by decide) (by decide)

/-! ## The codec (C17) -/

/-- C21: two PING_RSP messages that are both addressed to this node and carry
the same sequence number, whatever their originators and texts, leave the same
object (the same ping tracker in particular) and the same effects; a response
whose originator is not the destination recorded in the tracked probe still
removes that probe. -/
theorem ProcessPingRsp_sequence_only (self : LSRoutingProtocol) (rsp1 rsp2 : LSMessage)
    (hown1 : IsOwnAddress self rsp1.GetPingRsp.destinationAddress = true)
    (hown2 : IsOwnAddress self rsp2.GetPingRsp.destinationAddress = true)
    (hseq : rsp1.GetSequenceNumber = rsp2.GetSequenceNumber) :
    ProcessPingRsp self rsp1 = ProcessPingRsp self rsp2
      ∧ (ProcessPingRsp self rsp1).1.m_pingTracker = (ProcessPingRsp self rsp2).1.m_pingTracker
      ∧ ∀ probe, StdMap.find self.m_pingTracker rsp1.GetSequenceNumber = some probe →
          rsp1.GetOriginatorAddress ≠ probe.m_destinationAddress →
          StdMap.find (ProcessPingRsp self rsp1).1.m_pingTracker rsp1.GetSequenceNumber
            = none := by
  have heq : ProcessPingRsp self rsp1 = ProcessPingRsp self rsp2 := by
    simp only [ProcessPingRsp, hown1, hown2, hseq, if_true]
  refine ⟨heq, by rw [heq], ?_⟩
  intro probe hfind _
  rw [ProcessPingRsp_found self rsp1 probe hown1 hfind]
  exact StdMap.find_erase_self _ _

/-- C21, witness: on the node that tracks a probe to node 0 under sequence
number 1, the response of node 2 and a response from an unknown address with
another text have the same outcome, and the second one retires the probe. -/
theorem ProcessPingRsp_sequence_only_witness :
    ProcessPingRsp nodeAStale pingRspFromB = ProcessPingRsp nodeAStale pingRspFromStranger
      ∧ StdMap.find (ProcessPingRsp nodeAStale pingRspFromStranger).1.m_pingTracker
          pingRspFromStranger.GetSequenceNumber = none :=
  ⟨(ProcessPingRsp_sequence_only nodeAStale pingRspFromB pingRspFromStranger (by decide)
      (by decide) (by decide)).1,
    (ProcessPingRsp_sequence_only nodeAStale pingRspFromStranger pingRspFromB (by decide)
      (by decide) (by decide)).2.2 staleProbe (by decide) (by decide)⟩

/-! ## Rejected PING commands (C23) -/

/-- C23: a PING command with fewer than three tokens, or whose node token reads
as a node number that does not resolve (`ResolveNodeIpAddress` returns 0.0.0.0,
which it does for a number that is not a key of the directory and for a number
mapped to 0.0.0.0), returns the object unchanged, so the ping tracker, the
neighbor table and the sequence counter are as before, and broadcasts
nothing. -/
theorem ProcessCommand_ping_rejected (self : LSRoutingProtocol) (now : Time)
    (rest : List String) :
    (rest.length < 2 → ProcessCommand self now ("PING" :: rest) = some (self, []))
      ∧ (∀ nodeToken pingMessage more nodeNumber, rest = nodeToken :: pingMessage :: more →
          extractUInt32 nodeToken = some nodeNumber →
          ResolveNodeIpAddress self nodeNumber = Ipv4Address.GetAny →
          ProcessCommand self now ("PING" :: rest) = some (self, []))
      ∧ (∀ nodeNumber, StdMap.find self.m_nodeAddressMap nodeNumber = none →
          ResolveNodeIpAddress self nodeNumber = Ipv4Address.GetAny)
      ∧ (∀ nodeNumber, StdMap.find self.m_nodeAddressMap nodeNumber = some 0 →
          ResolveNodeIpAddress self nodeNumber = Ipv4Address.GetAny) := by
  refine ⟨?_, ?_, ?_, ?_⟩
  · intro hlen
    simp only [ProcessCommand, if_true, List.length_cons]
    rw [if_pos (by omega)]
  · intro nodeToken pingMessage more nodeNumber hrest hread hres
    subst hrest
    simp only [ProcessCommand, if_true, List.length_cons, hread]
    rw [if_neg (by omega), if_neg (by simp [hres])]
  · intro nodeNumber h
    simp [ResolveNodeIpAddress, h]
  · intro nodeNumber h
    simp [ResolveNodeIpAddress, h, Ipv4Address.GetAny]

/-- C23, witness: on node 1 the commands PING 2 (two tokens), PING 9 hi (node 9
is not in the directory) and, with node 5 mapped to 0.0.0.0, PING 5 hi change
nothing and broadcast nothing. -/
theorem ProcessCommand_ping_rejected_witness :
    ProcessCommand nodeA (Seconds 7) ["PING", "2"] = some (nodeA, [])
      ∧ ProcessCommand nodeA (Seconds 7) ["PING", "9", "hi"] = some (nodeA, [])
      ∧ ProcessCommand nodeAZeroEntry (Seconds 7) ["PING", "5", "hi"]
          = some (nodeAZeroEntry, []) :=
  ⟨(ProcessCommand_ping_rejected nodeA (Seconds 7) ["2"]).1 (by decide),
    (ProcessCommand_ping_rejected nodeA (Seconds 7) ["9", "hi"]).2.1 "9" "hi" [] 9 rfl
      (by decide) ((ProcessCommand_ping_rejected nodeA (Seconds 7) ["9", "hi"]).2.2.1 9 (by decide)),
    (ProcessCommand_ping_rejected nodeAZeroEntry (Seconds 7) ["5", "hi"]).2.1 "5" "hi" [] 5 rfl
      (by decide) ((ProcessCommand_ping_rejected nodeAZeroEntry (Seconds 7) ["5", "hi"]).2.2.2 5
        (by decide))⟩

/-! ## Distinct sequence numbers within one wrap (C24) -/

theorem GetNextSequenceNumbers_values (n : Nat) :
    ∀ self : LSRoutingProtocol,
      (GetNextSequenceNumbers self n).2
        = (List.range n).map (fun i => (self.m_currentSequenceNumber + i + 1) % 65536) := by
  induction n with
  | zero => intro self; rfl
  | succ n ih =>
    intro self
    have hnext := GetNextSequenceNumber_eq self
    have hstep : (GetNextSequenceNumbers self (n + 1)).2
        = (GetNextSequenceNumber self).2
            :: (GetNextSequenceNumbers (GetNextSequenceNumber self).1 n).2 := rfl
    rw [hstep, ih, List.range_succ_eq_map, List.map_cons, List.map_map, hnext]
    congr 1
    apply List.map_congr_left
    intro i _
    simp only [Function.comp]
    exact mod_step _ _

theorem mod_values_injective (c i j : Nat) (hi : i < 65536) (hj : j < 65536)
    (h : (c + i + 1) % 65536 = (c + j + 1) % 65536) : i = j := by
  omega

theorem mod_values_gap (c i j : Nat) (hij : i < j)
    (h : (c + i + 1) % 65536 = (c + j + 1) % 65536) : 65536 ≤ j - i := by
  omega

theorem mod_values_period (c i : Nat) :
    (c + (i + 65536) + 1) % 65536 = (c + i + 1) % 65536 := by
  omega

/-- C24: for every starting counter and every k with 1 <= k <= 65536, the k
values returned by k consecutive calls of `GetNextSequenceNumber` are pairwise
distinct; the call number k + 65536 returns what call number k returned; and two
calls of a run that return the same value are at least 65536 calls apart. -/
theorem GetNextSequenceNumbers_distinct (self : LSRoutingProtocol)
    (hstart : self.m_currentSequenceNumber ≤ 65535) :
    (∀ k, 1 ≤ k → k ≤ 65536 → (GetNextSequenceNumbers self k).2.Nodup)
      ∧ (∀ k n, 1 ≤ k → k + 65536 ≤ n →
          (GetNextSequenceNumbers self n).2[k + 65536 - 1]?
            = (GetNextSequenceNumbers self n).2[k - 1]?)
      ∧ (∀ n i j v, i < j →
          (GetNextSequenceNumbers self n).2[i]? = some v →
          (GetNextSequenceNumbers self n).2[j]? = some v → 65536 ≤ j - i) := by
  have _ := hstart
  refine ⟨?_, ?_, ?_⟩
  · intro k _ hk
    rw [GetNextSequenceNumbers_values]
    refine List.Nodup.map_on ?_ (List.nodup_range k)
    intro i hi j hj h
    exact mod_values_injective _ i j (by have := List.mem_range.mp hi; omega)
      (by have := List.mem_range.mp hj; omega) h
  · intro k n hk hn
    rw [GetNextSequenceNumbers_values]
    have h1 : k + 65536 - 1 < n := by omega
    have h2 : k - 1 < n := by omega
    simp only [List.getElem?_map, List.getElem?_range h1, List.getElem?_range h2,
      Option.map_some']
    have h3 : k + 65536 - 1 = (k - 1) + 65536 := by omega
    rw [h3, mod_values_period]
  · intro n i j v hij hi hj
    rw [GetNextSequenceNumbers_values] at hi hj
    have hjn : j < n := by
      by_contra hge
      rw [List.getElem?_eq_none (by simpa using Nat.le_of_not_lt hge)] at hj
      cases hj
    have hin : i < n := by omega
    simp only [List.getElem?_map, List.getElem?_range hin, List.getElem?_range hjn,
      Option.map_some', Option.some.injEq] at hi hj
    exact mod_values_gap _ i j hij (hi.trans hj.symm)

/-- C24, witness: from the counter of node 1 (0), 65536 consecutive calls return
pairwise distinct values, and call 65537 returns what call 1 returned. -/
theorem GetNextSequenceNumbers_distinct_witness :
    (GetNextSequenceNumbers nodeA 65536).2.Nodup
      ∧ (GetNextSequenceNumbers nodeA 65537).2[1 + 65536 - 1]?
          = (GetNextSequenceNumbers nodeA 65537).2[1 - 1]? :=
  ⟨(GetNextSequenceNumbers_distinct nodeA (by decide)).1 65536 (by decide) (by decide),
    (GetNextSequenceNumbers_distinct nodeA (by decide)).2.1 1 65537 (by decide) (by decide)⟩

/-! ## The interface a message arrived on (C25) -/

theorem findIncomingInterface_below (incomingIf : Nat) (sockets : List Ipv4InterfaceAddress) :
    ∀ idx, incomingIf < idx →
      findIncomingInterface incomingIf idx sockets = Ipv4Address.Default := by
  induction sockets with
  | nil => intro idx _; rfl
  | cons i rest ih =>
    intro idx h
    rw [findIncomingInterface, if_neg (by omega)]
    exact ih (idx + 1) (by omega)

theorem findIncomingInterface_from (incomingIf : Nat) (sockets : List Ipv4InterfaceAddress) :
    ∀ idx, idx ≤ incomingIf →
      findIncomingInterface incomingIf idx sockets
        = ((sockets[incomingIf - idx]?).map Ipv4InterfaceAddress.GetLocal).getD
            Ipv4Address.Default := by
  induction sockets with
  | nil => intro idx _; rfl
  | cons i rest ih =>
    intro idx h
    by_cases heq : idx = incomingIf
    · subst heq
      rw [findIncomingInterface, if_pos rfl, Nat.sub_self]
      simp
    · rw [findIncomingInterface, if_neg heq, ih (idx + 1) (by omega)]
      have h1 : incomingIf - idx = (incomingIf - (idx + 1)) + 1 := by omega
      rw [h1, List.getElem?_cons_succ]

theorem IsOwnAddressIn_iff (sockets : List Ipv4InterfaceAddress) (a : Ipv4Address) :
    IsOwnAddressIn sockets a = true ↔ ∃ i ∈ sockets, a = i.GetLocal := by
  induction sockets with
  | nil => simp [IsOwnAddressIn]
  | cons i rest ih =>
    by_cases h : a = i.GetLocal
    · simp [IsOwnAddressIn, h]
    · simp [IsOwnAddressIn, h, ih]

/-- C25, counterexample: node 1 has the interfaces 10.0.0.1 and 102.102.102.102.
For a HELLO_RSP of node 2 that arrives with interface index 0 or 7, neither of
them in the range 1..2, the address passed on is the default-constructed one,
it is stored as `interfaceAddr` of the neighbor entry, and it is an own address
of the node. -/
theorem incoming_interface_default_is_own :
    nodeADefaultInterface.m_socketAddresses.length = 2
      ∧ findIncomingInterface 0 1 nodeADefaultInterface.m_socketAddresses = Ipv4Address.Default
      ∧ findIncomingInterface 7 1 nodeADefaultInterface.m_socketAddresses = Ipv4Address.Default
      ∧ (RecvLSMessage nodeADefaultInterface (Seconds 7) ⟨some 7, some helloRspFromB⟩).map
          (fun r => StdMap.find r.1.m_neighbors 2)
          = some (some ⟨addrB, Ipv4Address.Default, Seconds 7⟩)
      ∧ IsOwnAddress nodeADefaultInterface Ipv4Address.Default = true := by
  refine ⟨by decide, by decide, by decide, by decide, by decide⟩

/-- C25, amended: the address that `RecvLSMessage` passes to `ProcessHelloRsp`
for a packet with incoming-interface index r is the local address of the r-th
socket entry (counted from 1) when 1 <= r <= n, and the default-constructed
address otherwise.  It is an own address of the node whenever 1 <= r <= n, and,
when no bound interface has the default-constructed address, only then. -/
theorem RecvLSMessage_incoming_interface (self : LSRoutingProtocol) (now : Time) (r : Nat)
    (lsMessage : LSMessage) :
    (lsMessage.GetMessageType = HELLO_RSP →
        RecvLSMessage self now ⟨some r, some lsMessage⟩
          = some (ProcessHelloRsp self now lsMessage
              (findIncomingInterface r 1 self.m_socketAddresses)))
      ∧ (∀ i, 1 ≤ r → self.m_socketAddresses[r - 1]? = some i →
          findIncomingInterface r 1 self.m_socketAddresses = i.GetLocal)
      ∧ (¬ (1 ≤ r ∧ r ≤ self.m_socketAddresses.length) →
          findIncomingInterface r 1 self.m_socketAddresses = Ipv4Address.Default)
      ∧ (1 ≤ r ∧ r ≤ self.m_socketAddresses.length →
          IsOwnAddress self (findIncomingInterface r 1 self.m_socketAddresses) = true)
      ∧ (IsOwnAddress self Ipv4Address.Default = false →
          (IsOwnAddress self (findIncomingInterface r 1 self.m_socketAddresses) = true
            ↔ 1 ≤ r ∧ r ≤ self.m_socketAddresses.length)) := by
  have hin : ∀ i, 1 ≤ r → self.m_socketAddresses[r - 1]? = some i →
      findIncomingInterface r 1 self.m_socketAddresses = i.GetLocal := by
    intro i h1 hi
    rw [findIncomingInterface_from r _ 1 h1, hi]
    rfl
  have hout : ¬ (1 ≤ r ∧ r ≤ self.m_socketAddresses.length) →
      findIncomingInterface r 1 self.m_socketAddresses = Ipv4Address.Default := by
    intro h
    by_cases h1 : 1 ≤ r
    · have hlen : self.m_socketAddresses.length ≤ r - 1 := by omega
      rw [findIncomingInterface_from r _ 1 h1, List.getElem?_eq_none hlen]
      rfl
    · exact findIncomingInterface_below r _ 1 (by omega)
  have hown : 1 ≤ r ∧ r ≤ self.m_socketAddresses.length →
      IsOwnAddress self (findIncomingInterface r 1 self.m_socketAddresses) = true := by
    intro h
    have hlt : r - 1 < self.m_socketAddresses.length := by omega
    have hget : self.m_socketAddresses[r - 1]? = some (self.m_socketAddresses[r - 1]) :=
      List.getElem?_eq_getElem hlt
    rw [hin _ h.1 hget]
    exact (IsOwnAddressIn_iff _ _).mpr ⟨_, List.getElem_mem hlt, rfl⟩
  refine ⟨?_, hin, hout, hown, ?_⟩
  · intro ht
    simp only [RecvLSMessage, ht, HELLO_RSP]
  · intro hdef
    refine ⟨?_, hown⟩
    intro h
    by_contra hr
    rw [hout hr, hdef] at h
    cases h

/-- C25, witness: on the node with the interfaces 10.0.0.1 and 192.168.1.5 a
packet with interface index 2 is handed on with 192.168.1.5, and with index 3
with the default-constructed address, which is not an own address there. -/
theorem RecvLSMessage_incoming_interface_witness :
    findIncomingInterface 2 1 nodeATwoInterfaces.m_socketAddresses = 0xc0a80105
      ∧ findIncomingInterface 3 1 nodeATwoInterfaces.m_socketAddresses = Ipv4Address.Default
      ∧ (IsOwnAddress nodeATwoInterfaces
            (findIncomingInterface 3 1 nodeATwoInterfaces.m_socketAddresses) = true
          ↔ 1 ≤ 3 ∧ 3 ≤ nodeATwoInterfaces.m_socketAddresses.length) :=
  ⟨(RecvLSMessage_incoming_interface nodeATwoInterfaces 0 2 helloRspFromB).2.1
      ⟨0xc0a80105, 0xffff0000⟩ (by decide) (by decide),
    (RecvLSMessage_incoming_interface nodeATwoInterfaces 0 3 helloRspFromB).2.2.1 (by decide),
    (RecvLSMessage_incoming_interface nodeATwoInterfaces 0 3 helloRspFromB).2.2.2.2
      (by decide)⟩

/-! ## The two engines compared (C22) -/

theorem DV.IsOwnAddressIn_eq (sockets : List Ipv4InterfaceAddress) (a : Ipv4Address) :
    DV.IsOwnAddressIn sockets a = LSRouting.IsOwnAddressIn sockets a := by
  induction sockets with
  | nil => rfl
  | cons i rest ih => simp only [DV.IsOwnAddressIn, LSRouting.IsOwnAddressIn, ih]

theorem DV.IsOwnAddress_eq (self : LSRoutingProtocol) (a : Ipv4Address) :
    DV.IsOwnAddress self a = LSRouting.IsOwnAddress self a :=
  DV.IsOwnAddressIn_eq _ _

theorem DV.findIncomingInterface_eq (incomingIf : Nat) (sockets : List Ipv4InterfaceAddress) :
    ∀ idx, DV.findIncomingInterface incomingIf idx sockets
      = LSRouting.findIncomingInterface incomingIf idx sockets := by
  induction sockets with
  | nil => intro idx; rfl
  | cons i rest ih =>
    intro idx
    simp only [DV.findIncomingInterface, LSRouting.findIncomingInterface, ih]

/-- The two engines apart from the DUMP command: the sequence counter, the four
message handlers, the receive callback and the two audits of the DV engine are
those of the LS engine, and so is `ProcessCommand` on every token list that is
not a DUMP command whose second token is "NEIGHBOURS" or "neighborS". -/
theorem DV_eq_LS_except_dump (self : LSRoutingProtocol) (now : Time) (message : LSMessage)
    (interfaceAd : Ipv4Address) (packet : Packet) (tokens : List String) :
    DV.GetNextSequenceNumber self = LSRouting.GetNextSequenceNumber self
      ∧ DV.ProcessPingReq self message = LSRouting.ProcessPingReq self message
      ∧ DV.ProcessPingRsp self message = LSRouting.ProcessPingRsp self message
      ∧ DV.ProcessHelloReq self message = LSRouting.ProcessHelloReq self message
      ∧ DV.ProcessHelloRsp self now message interfaceAd
          = LSRouting.ProcessHelloRsp self now message interfaceAd
      ∧ DV.AuditNeighbors self now = LSRouting.AuditNeighbors self now
      ∧ DV.AuditPings self now = LSRouting.AuditPings self now
      ∧ DV.RecvDVMessage self now packet = LSRouting.RecvLSMessage self now packet
      ∧ (¬ (tokens.head? = some "DUMP"
            ∧ (tokens.tail.head? = some "NEIGHBOURS" ∨ tokens.tail.head? = some "neighborS")) →
          DV.ProcessCommand self now tokens = LSRouting.ProcessCommand self now tokens) := by
  have h1 : ∀ m, DV.ProcessPingReq self m = LSRouting.ProcessPingReq self m := by
    intro m
    simp only [DV.ProcessPingReq, LSRouting.ProcessPingReq, DV.IsOwnAddress_eq]
  have h2 : ∀ m, DV.ProcessPingRsp self m = LSRouting.ProcessPingRsp self m := by
    intro m
    simp only [DV.ProcessPingRsp, LSRouting.ProcessPingRsp, DV.IsOwnAddress_eq]
  have h3 : ∀ m i, DV.ProcessHelloRsp self now m i = LSRouting.ProcessHelloRsp self now m i := by
    intro m i
    simp only [DV.ProcessHelloRsp, LSRouting.ProcessHelloRsp, DV.IsOwnAddress_eq]
    rfl
  refine ⟨rfl, h1 message, h2 message, rfl, h3 message interfaceAd, rfl, rfl, ?_, ?_⟩
  · obtain ⟨tag, header⟩ := packet
    cases tag with
    | none => rfl
    | some incomingIf =>
      cases header with
      | none => rfl
      | some m =>
        simp only [DV.RecvDVMessage, LSRouting.RecvLSMessage, DV.findIncomingInterface_eq, h1,
          h2, h3]
        rfl
  · intro hnot
    match tokens, hnot with
    | [], _ => rfl
    | [command], _ => rfl
    | command :: second :: more, hnot =>
      by_cases hc : command = "DUMP"
      · subst hc
        have hs : second ≠ "NEIGHBOURS" ∧ second ≠ "neighborS" := by
          constructor
          · intro h; exact hnot ⟨rfl, Or.inl (by simp [h])⟩
          · intro h; exact hnot ⟨rfl, Or.inr (by simp [h])⟩
        simp [DV.ProcessCommand, LSRouting.ProcessCommand, hs.1, hs.2, DV.DumpNeighbors,
          LSRouting.DumpNeighbors]
      · simp only [DV.ProcessCommand, LSRouting.ProcessCommand, hc, if_false]
        rfl

/-- C22, failing input: the command DUMP NEIGHBOURS on node 1 with a recorded
neighbor.  The DV engine dumps the neighbor table, the LS engine does nothing;
for DUMP neighborS it is the other way round.  The second keyword of the DUMP
command is "NEIGHBOURS" in one engine and "neighborS" in the other. -/
theorem DV_LS_differ_on_dump :
    DV.ProcessCommand nodeAWithNeighbor (Seconds 7) ["DUMP", "NEIGHBOURS"]
        = some (nodeAWithNeighbor, [Effect.Dump [(0, ⟨addrC, addrA, Seconds 1⟩)]])
      ∧ LSRouting.ProcessCommand nodeAWithNeighbor (Seconds 7) ["DUMP", "NEIGHBOURS"]
          = some (nodeAWithNeighbor, [])
      ∧ DV.ProcessCommand nodeAWithNeighbor (Seconds 7) ["DUMP", "neighborS"]
          = some (nodeAWithNeighbor, [])
      ∧ LSRouting.ProcessCommand nodeAWithNeighbor (Seconds 7) ["DUMP", "neighborS"]
          = some (nodeAWithNeighbor, [Effect.Dump [(0, ⟨addrC, addrA, Seconds 1⟩)]])
      ∧ DV.ProcessCommand nodeAWithNeighbor (Seconds 7) ["DUMP", "NEIGHBORS"]
          = LSRouting.ProcessCommand nodeAWithNeighbor (Seconds 7) ["DUMP", "NEIGHBORS"] := by
  refine ⟨by decide, by decide, by decide, by decide, by decide⟩

end LSRouting
